import Mathlib

/-! sync-vcenter-to-etcd: a verification development of `main.go`

A shallow embedding of the reconciliation pass of `main.go`:
`GetAllVMs`, `GetAllHosts`, `SyncVMRecord`, `SyncHostRecord` and `main`.

Conventions of the embedding.

* Go strings are Lean `String`s (sequences of Unicode scalar values, i.e. the
  valid UTF-8 Go strings).  The only separator the program splits on is the
  ASCII `"."`, whose byte never occurs inside a multi-byte UTF-8 sequence, so
  cutting at characters and cutting at bytes agree.
* A Go pointer field that may be `nil` is an `Option`; dereferencing `none`
  is the run-time panic `nilDereference`.  Indexing a slice out of range is
  the panic `indexOutOfRange`.
* The etcd client and the vCenter API are external; they are parameters of
  the embedding (records of functions), never fixed to one behaviour, except
  in the theorems that say so.
-/

namespace SyncVCenter

/-! ## Go standard library: `strings` -/

namespace strings

/-- Go `strings.Index` on character lists: the position of the first
occurrence of `sep` in `s`, or `none` (Go: `-1`) when there is none. -/
def IndexChars : List Char → List Char → Option Nat
  | [], sep => if sep = [] then some 0 else none
  | c :: cs, sep =>
    if sep.isPrefixOf (c :: cs) then some 0
    else (IndexChars cs sep).map (· + 1)

/-- The loop of Go `strings.Count` for a non-empty `substr`: the number of
non-overlapping occurrences.  `fuel` bounds the number of iterations. -/
def CountLoop (sep : List Char) : Nat → List Char → Nat
  | 0, _ => 0
  | fuel + 1, s =>
    match IndexChars s sep with
    | none => 0
    | some i => CountLoop sep fuel (s.drop (i + sep.length)) + 1

/-- Go `strings.Count(s, substr)`; for the empty `substr` it is the number
of characters plus one. -/
def CountChars (s sep : List Char) : Nat :=
  if sep = [] then s.length + 1 else CountLoop sep (s.length + 1) s

/-- The loop of Go `genSplit`:
`for i < n { m := Index(s, sep); if m < 0 { break }; a[i] = s[:m];
s = s[m+len(sep):]; i++ }; a[i] = s`. -/
def genSplitLoop (sep : List Char) : Nat → List Char → List (List Char)
  | 0, s => [s]
  | n + 1, s =>
    match IndexChars s sep with
    | none => [s]
    | some m => s.take m :: genSplitLoop sep n (s.drop (m + sep.length))

/-- Go `explode(s, -1)`: one string per character. -/
def explode (s : List Char) : List (List Char) :=
  s.map fun c => [c]

/-- Go `genSplit(s, sep, 0, -1)` on character lists. -/
def genSplit (s sep : List Char) : List (List Char) :=
  if sep = [] then explode s
  else
    let n := CountChars s sep + 1
    let n := if n > s.length + 1 then s.length + 1 else n
    genSplitLoop sep (n - 1) s

/-- Go `strings.Split(s, sep)`. -/
def Split (s sep : String) : List String :=
  (genSplit s.data sep.data).map String.mk

end strings

/-- The expression `strings.Split(name, ".")[0]`: `none` stands for the
index-out-of-range panic. -/
def shortName? (name : String) : Option String :=
  (strings.Split name ".")[0]?

/-- The part of a character list before its first dot. -/
def beforeDot (s : List Char) : List Char := s.takeWhile (· != '.')

/-! ## Inventory objects (govmomi `mo` / `types`), restricted to the fields read -/

/-- govmomi `types.VirtualMachineConfigInfo`: the field `Name`. -/
structure VirtualMachineConfigInfo where
  Name : String
  deriving DecidableEq, Repr

/-- govmomi `types.VirtualMachineGuestSummary`: the field `IpAddress`. -/
structure VirtualMachineGuestSummary where
  IpAddress : String
  deriving DecidableEq, Repr

/-- govmomi `types.VirtualMachineSummary`: `Guest` is a pointer
(`*VirtualMachineGuestSummary`), unset when the inventory reports no guest
summary. -/
structure VirtualMachineSummary where
  Guest : Option VirtualMachineGuestSummary
  deriving DecidableEq, Repr

/-- govmomi `mo.VirtualMachine`: `Config` is a pointer
(`*VirtualMachineConfigInfo`), unset when the inventory reports no
configuration; `Summary` is a value. -/
structure VirtualMachine where
  Config : Option VirtualMachineConfigInfo
  Summary : VirtualMachineSummary
  deriving DecidableEq, Repr

/-- govmomi `types.HostConfigSummary`: the field `Name`. -/
structure HostConfigSummary where
  Name : String
  deriving DecidableEq, Repr

/-- govmomi `types.HostListSummary`: `Config` is a value (not a pointer) and
`ManagementServerIp` a string. -/
structure HostListSummary where
  Config : HostConfigSummary
  ManagementServerIp : String
  deriving DecidableEq, Repr

/-- govmomi `mo.HostSystem`: `Summary` is a value. -/
structure HostSystem where
  Summary : HostListSummary
  deriving DecidableEq, Repr

/-- govmomi `types.ManagedObjectReference`, kept abstract as its value. -/
structure ManagedObjectReference where
  Value : String
  deriving DecidableEq, Repr

/-! ## Faults, store operations, runs -/

/-- A Go `error` value, identified with its message. -/
abbrev Error := String

/-- The run-time panics the program can raise. -/
inductive Panic where
  | nilDereference
  | indexOutOfRange
  deriving DecidableEq, Repr

/-- Dereference of a pointer: `nil` panics. -/
def deref {α : Type} : Option α → Except Panic α
  | some a => .ok a
  | none => .error .nilDereference

/-- Slice indexing `xs[i]`: out of range panics. -/
def index {α : Type} (xs : List α) (i : Nat) : Except Panic α :=
  match xs[i]? with
  | some a => .ok a
  | none => .error .indexOutOfRange

/-- A call on the etcd client: `cli.Put(ctx, key, value)` or
`cli.Delete(ctx, key)`. -/
inductive StoreOp where
  | Put (key value : String)
  | Delete (key : String)
  deriving DecidableEq, Repr

/-- The key a store operation addresses. -/
def StoreOp.key : StoreOp → String
  | .Put k _ => k
  | .Delete k => k

/-- An etcd client (`*clientv3.Client`) acting on a world of type `σ`: each
call yields the next world and the returned `error` (`none` is `nil`). -/
structure Client (σ : Type) where
  Put : σ → String → String → σ × Option Error
  Delete : σ → String → σ × Option Error

/-- Issue one operation on the client. -/
def Client.exec {σ : Type} (cli : Client σ) (s : σ) : StoreOp → σ × Option Error
  | .Put k v => cli.Put s k v
  | .Delete k => cli.Delete s k

/-- How a function (or the process) ended. -/
inductive Status where
  | returned
  | exited (code : Nat)
  | panicked (p : Panic)
  deriving DecidableEq, Repr

/-- The exit status of the process: `0` when `main` returns, the argument of
`os.Exit` (`log.Fatal` calls `os.Exit(1)`), and `2` for an unrecovered
panic. -/
def Status.exitCode : Status → Nat
  | .returned => 0
  | .exited c => c
  | .panicked _ => 2

/-- What a run did: the world it left, the store operations it issued (in
order, the failed one included) and how it ended. -/
structure Run (σ : Type) where
  store : σ
  issued : List StoreOp
  status : Status

/-! ## `SyncVMRecord` and `SyncHostRecord` -/

/-- The value argument of `cli.Put`: `"{\"host\":\"" + ip + "\",\"ttl\":60}"`. -/
def recordValue (ip : String) : String :=
  "\x7b\"host\":\"" ++ ip ++ "\",\"ttl\":60\x7d"

/-- The key argument: `rootPath + etcdDomainName + "/" + short`. -/
def recordKey (rootPath etcdDomainName short : String) : String :=
  rootPath ++ etcdDomainName ++ "/" ++ short

/-- The loop body of `SyncVMRecord` (lines 115-125) up to the client call:
the test `len(vm.Summary.Guest.IpAddress) != 0` and the evaluation of the
arguments of `cli.Put` / `cli.Delete`, left to right. -/
def SyncVMRecord.operation (rootPath etcdDomainName : String) (vm : VirtualMachine) :
    Except Panic StoreOp := do
  let guest ← deref vm.Summary.Guest
  if guest.IpAddress.utf8ByteSize != 0 then
    let config ← deref vm.Config
    let short ← index (strings.Split config.Name ".") 0
    let guest ← deref vm.Summary.Guest
    pure (.Put (recordKey rootPath etcdDomainName short) (recordValue guest.IpAddress))
  else
    let config ← deref vm.Config
    let short ← index (strings.Split config.Name ".") 0
    pure (.Delete (recordKey rootPath etcdDomainName short))

/-- The loop body of `SyncHostRecord` (lines 139-149) up to the client call. -/
def SyncHostRecord.operation (rootPath etcdDomainName : String) (hs : HostSystem) :
    Except Panic StoreOp := do
  if hs.Summary.ManagementServerIp.utf8ByteSize != 0 then
    let short ← index (strings.Split hs.Summary.Config.Name ".") 0
    pure (.Put (recordKey rootPath etcdDomainName short)
      (recordValue hs.Summary.ManagementServerIp))
  else
    let short ← index (strings.Split hs.Summary.Config.Name ".") 0
    pure (.Delete (recordKey rootPath etcdDomainName short))

/-- The `for ... range` loop shared by both passes: per entry, evaluate the
operation (a panic ends the process), issue it, and `log.Fatal(err)` when the
client returns an error. -/
def syncLoop {σ α : Type} (cli : Client σ) (operation : α → Except Panic StoreOp) :
    List α → σ → Run σ
  | [], s => ⟨s, [], .returned⟩
  | e :: rest, s =>
    match operation e with
    | .error p => ⟨s, [], .panicked p⟩
    | .ok op =>
      match cli.exec s op with
      | (s', some _) => ⟨s', [op], .exited 1⟩
      | (s', none) =>
        let r := syncLoop cli operation rest s'
        ⟨r.store, op :: r.issued, r.status⟩

/-- `SyncVMRecord`: `clientv3.New` (an error is `log.Fatal`), then the loop
over `vms`.  `New` is the constructor of the etcd client library.  The
deferred `cli.Close()` issues no store operation and is left out. -/
def SyncVMRecord {σ : Type} (New : σ → String → σ × Except Error (Client σ))
    (etcdEndpoint rootPath etcdDomainName : String) (vms : List VirtualMachine)
    (s : σ) : Run σ :=
  match New s etcdEndpoint with
  | (s', .error _) => ⟨s', [], .exited 1⟩
  | (s', .ok cli) => syncLoop cli (SyncVMRecord.operation rootPath etcdDomainName) vms s'

/-- `SyncHostRecord`: `clientv3.New` (an error is `log.Fatal`), then the loop
over `hst`. -/
def SyncHostRecord {σ : Type} (New : σ → String → σ × Except Error (Client σ))
    (etcdEndpoint rootPath etcdDomainName : String) (hst : List HostSystem)
    (s : σ) : Run σ :=
  match New s etcdEndpoint with
  | (s', .error _) => ⟨s', [], .exited 1⟩
  | (s', .ok cli) => syncLoop cli (SyncHostRecord.operation rootPath etcdDomainName) hst s'

/-! ## Inventory fetch and `main` -/

/-- The vCenter calls one fetch makes (govmomi `find.Finder` and
`property.Collector`), each acting on the world: `DefaultDatacenter`,
the wildcard listing (`VirtualMachineList` / `HostSystemList`, here already
mapped to references) and `Retrieve`. -/
structure Finder (σ α : Type) where
  DefaultDatacenter : σ → σ × Except Error Unit
  ObjectList : σ → σ × Except Error (List ManagedObjectReference)
  Retrieve : σ → List ManagedObjectReference → σ × Except Error (List α)

/-- `GetAllVMs` (lines 35-68).  `.error err` is the path that prints `err`
and calls `os.Exit(1)`. -/
def GetAllVMs {σ : Type} (f : Finder σ VirtualMachine) (s : σ) :
    σ × Except Error (List VirtualMachine) :=
  match f.DefaultDatacenter s with
  | (s, .error err) => (s, .error err)
  | (s, .ok _) =>
    match f.ObjectList s with
    | (s, .error err) => (s, .error err)
    | (s, .ok refs) =>
      match f.Retrieve s refs with
      | (s, .error err) => (s, .error err)
      | (s, .ok vmt) => (s, .ok vmt)

/-- `GetAllHosts` (lines 70-103).  `.error err` is the path that prints `err`
and calls `os.Exit(1)`. -/
def GetAllHosts {σ : Type} (f : Finder σ HostSystem) (s : σ) :
    σ × Except Error (List HostSystem) :=
  match f.DefaultDatacenter s with
  | (s, .error err) => (s, .error err)
  | (s, .ok _) =>
    match f.ObjectList s with
    | (s, .error err) => (s, .error err)
    | (s, .ok refs) =>
      match f.Retrieve s refs with
      | (s, .error err) => (s, .error err)
      | (s, .ok hst) => (s, .ok hst)

/-- Everything outside the process that `main` talks to: the environment
variables, `url.Parse`, `govmomi.NewClient`, the vCenter calls of the two
fetches and `clientv3.New`. -/
structure World (σ : Type) where
  Getenv : String → String
  Parse : String → Except Error Unit
  NewClient : σ → σ × Except Error Unit
  vmFinder : Finder σ VirtualMachine
  hostFinder : Finder σ HostSystem
  New : σ → String → σ × Except Error (Client σ)

/-- `ConnectTovCenter` (lines 20-33).  `.error err` is the path that prints
`err` and calls `os.Exit(1)`. -/
def ConnectTovCenter {σ : Type} (w : World σ) (hostname : String) (s : σ) :
    σ × Except Error Unit :=
  match w.Parse hostname with
  | .error err => (s, .error err)
  | .ok _ => w.NewClient s

/-- `main` (lines 153-161): connect, fetch the VMs, `SyncVMRecord`, fetch the
hosts, `SyncHostRecord`.  A step that exits or panics ends the process. -/
def main {σ : Type} (w : World σ) (s : σ) : Run σ :=
  match ConnectTovCenter w (w.Getenv "vCSAHostname") s with
  | (s, .error _) => ⟨s, [], .exited 1⟩
  | (s, .ok _) =>
    match GetAllVMs w.vmFinder s with
    | (s, .error _) => ⟨s, [], .exited 1⟩
    | (s, .ok vms) =>
      let r := SyncVMRecord w.New (w.Getenv "etcdEndpoint") (w.Getenv "etcdPluginRootPath")
        (w.Getenv "etcdDomainName") vms s
      match r.status with
      | .returned =>
        match GetAllHosts w.hostFinder r.store with
        | (s, .error _) => ⟨s, r.issued, .exited 1⟩
        | (s, .ok hosts) =>
          let r' := SyncHostRecord w.New (w.Getenv "etcdEndpoint")
            (w.Getenv "etcdPluginRootPath") (w.Getenv "etcdDomainName") hosts s
          ⟨r'.store, r.issued ++ r'.issued, r'.status⟩
      | st => ⟨r.store, r.issued, st⟩

/-! ## The store as a key-to-value map on which every write succeeds -/

/-- The content of the store: the value held at each key, if any. -/
abbrev KV := String → Option String

/-- `Put` on the map: the key now holds the value. -/
def KV.put (s : KV) (k v : String) : KV :=
  fun k' => if k' = k then some v else s k'

/-- `Delete` on the map: the key holds nothing; deleting an absent key is
not an error. -/
def KV.delete (s : KV) (k : String) : KV :=
  fun k' => if k' = k then none else s k'

/-- The client of the map store: both calls succeed. -/
def kvClient : Client KV where
  Put s k v := (s.put k v, none)
  Delete s k := (s.delete k, none)

/-- `clientv3.New` for the map store: the connection succeeds and leaves the
content as it is. -/
def kvNew : KV → String → KV × Except Error (Client KV) :=
  fun s _ => (s, .ok kvClient)

/-- The reconciliation on the map store: `SyncVMRecord` over the VMs, then,
when it returned, `SyncHostRecord` over the hosts (as `main` sequences
them). -/
def reconcile (etcdEndpoint rootPath etcdDomainName : String)
    (vms : List VirtualMachine) (hosts : List HostSystem) (s : KV) : Run KV :=
  let r := SyncVMRecord kvNew etcdEndpoint rootPath etcdDomainName vms s
  match r.status with
  | .returned =>
    let r' := SyncHostRecord kvNew etcdEndpoint rootPath etcdDomainName hosts r.store
    ⟨r'.store, r.issued ++ r'.issued, r'.status⟩
  | st => ⟨r.store, r.issued, st⟩

/-! ## Auxiliary notions used to state the store theorems -/

/-- The effect of one operation on the map. -/
def KV.apply (s : KV) : StoreOp → KV
  | .Put k v => s.put k v
  | .Delete k => s.delete k

/-- The last write a list of operations makes at key `k`: `none` when no
operation addresses `k`, `some none` for a `Delete`, `some (some v)` for a
`Put` of `v`. -/
def lastWrite (k : String) : List StoreOp → Option (Option String)
  | [] => none
  | .Put k' v :: ops =>
    match lastWrite k ops with
    | some w => some w
    | none => if k = k' then some (some v) else none
  | .Delete k' :: ops =>
    match lastWrite k ops with
    | some w => some w
    | none => if k = k' then some none else none

/-- The operations of the entries up to the first one whose evaluation
panics. -/
def okPrefix {α : Type} (operation : α → Except Panic StoreOp) : List α → List StoreOp
  | [] => []
  | e :: rest =>
    match operation e with
    | .error _ => []
    | .ok op => op :: okPrefix operation rest

/-- How the loop ends on a store that never fails: it returns, or panics at
the first entry whose evaluation panics. -/
def okStatus {α : Type} (operation : α → Except Panic StoreOp) : List α → Status
  | [] => .returned
  | e :: rest =>
    match operation e with
    | .error p => .panicked p
    | .ok _ => okStatus operation rest

/-! ## The reader's side: decoding a JSON text

The value put into the store is read back by a JSON decoder.  The decoder
below follows RFC 8259 on the fragment the record needs: an object whose
member values are strings or integers (no fraction, no exponent, no nested
value, no literal name).  A text outside the fragment is rejected. -/

namespace JSON

/-- A decoded member value: a string or an integer. -/
inductive Value where
  | str (s : String)
  | num (n : Int)
  deriving DecidableEq, Repr

/-- Insignificant whitespace: space, tab, line feed, carriage return. -/
def isWs (c : Char) : Bool :=
  c == ' ' || c == '\t' || c == '\n' || c == '\r'

/-- Drop leading whitespace. -/
def skipWs : List Char → List Char
  | [] => []
  | c :: cs => if isWs c then skipWs cs else c :: cs

/-- The value of a hexadecimal digit. -/
def hexDigit (c : Char) : Option Nat :=
  if '0' ≤ c ∧ c ≤ '9' then some (c.toNat - 48)
  else if 'a' ≤ c ∧ c ≤ 'f' then some (c.toNat - 87)
  else if 'A' ≤ c ∧ c ≤ 'F' then some (c.toNat - 55)
  else none

/-- The character a two-character escape stands for. -/
def escape (e : Char) : Option Char :=
  if e = '"' then some '"'
  else if e = '\\' then some '\\'
  else if e = '/' then some '/'
  else if e = 'b' then some (Char.ofNat 8)
  else if e = 'f' then some (Char.ofNat 12)
  else if e = 'n' then some '\n'
  else if e = 'r' then some '\r'
  else if e = 't' then some '\t'
  else none

/-- Decode a string literal from just after its opening quote: the decoded
characters and the text after the closing quote.  An unescaped control
character, an unknown escape and an unterminated literal are errors;
`\uXXXX` is decoded outside the surrogate range. -/
def stringBody : List Char → Option (List Char × List Char)
  | [] => none
  | c :: cs =>
    if c = '"' then some ([], cs)
    else if c = '\\' then
      match cs with
      | [] => none
      | e :: rest =>
        if e = 'u' then
          match rest with
          | a :: b :: c' :: d :: rest' =>
            match hexDigit a, hexDigit b, hexDigit c', hexDigit d with
            | some a, some b, some c', some d =>
              if 0xD800 ≤ ((a * 16 + b) * 16 + c') * 16 + d ∧
                  ((a * 16 + b) * 16 + c') * 16 + d ≤ 0xDFFF then none
              else
                match stringBody rest' with
                | some (s, r) => some (Char.ofNat (((a * 16 + b) * 16 + c') * 16 + d) :: s, r)
                | none => none
            | _, _, _, _ => none
          | _ => none
        else
          match escape e with
          | some x =>
            match stringBody rest with
            | some (s, r) => some (x :: s, r)
            | none => none
          | none => none
    else if c.toNat < 0x20 then none
    else
      match stringBody cs with
      | some (s, r) => some (c :: s, r)
      | none => none

/-- The value of a decimal digit. -/
def digit (c : Char) : Option Nat :=
  if '0' ≤ c ∧ c ≤ '9' then some (c.toNat - 48) else none

/-- The leading decimal digits and the text after them. -/
def digits : List Char → List Nat × List Char
  | [] => ([], [])
  | c :: cs =>
    match digit c with
    | some d => (d :: (digits cs).1, (digits cs).2)
    | none => ([], c :: cs)

/-- A natural number literal: at least one digit, no leading zero. -/
def natural (cs : List Char) : Option (Nat × List Char) :=
  match digits cs with
  | ([], _) => none
  | ([d], r) => some (d, r)
  | (0 :: _, _) => none
  | (ds, r) => some (ds.foldl (fun n d => n * 10 + d) 0, r)

/-- An integer literal. -/
def number : List Char → Option (Int × List Char)
  | [] => none
  | c :: cs =>
    if c = '-' then
      match natural cs with
      | some (n, r) => some (-(n : Int), r)
      | none => none
    else
      match natural (c :: cs) with
      | some (n, r) => some ((n : Int), r)
      | none => none

/-- A member value: a string literal or an integer literal. -/
def value : List Char → Option (Value × List Char)
  | [] => none
  | c :: cs =>
    if c = '"' then
      match stringBody cs with
      | some (s, r) => some (.str (String.mk s), r)
      | none => none
    else
      match number (c :: cs) with
      | some (n, r) => some (.num n, r)
      | none => none

/-- The members of an object from the first character of a member up to
and including the closing brace.  `fuel` bounds the number of members. -/
def members : Nat → List Char → Option (List (String × Value) × List Char)
  | 0, _ => none
  | _, [] => none
  | fuel + 1, c :: cs =>
    if c = '"' then
      match stringBody cs with
      | none => none
      | some (k, r) =>
        match skipWs r with
        | [] => none
        | c1 :: r1 =>
          if c1 = ':' then
            match value (skipWs r1) with
            | none => none
            | some (v, r2) =>
              match skipWs r2 with
              | [] => none
              | c3 :: r3 =>
                if c3 = ',' then
                  match members fuel (skipWs r3) with
                  | some (ms, r4) => some ((String.mk k, v) :: ms, r4)
                  | none => none
                else if c3 = '\x7d' then some ([(String.mk k, v)], r3)
                else none
          else none
    else none

/-- Decode a JSON text that is one object of the fragment: its members in
order of appearance. -/
def decodeObject (text : String) : Option (List (String × Value)) :=
  match skipWs text.data with
  | [] => none
  | c :: cs =>
    if c = '\x7b' then
      match skipWs cs with
      | [] => none
      | c1 :: cs1 =>
        if c1 = '\x7d' then (if skipWs cs1 = [] then some [] else none)
        else
          match members (c1 :: cs1).length (c1 :: cs1) with
          | some (ms, r) => if skipWs r = [] then some ms else none
          | none => none
    else none

end JSON

/-! ## Concrete worlds for the examples -/

/-- A world that only records the store operations that took effect. -/
abbrev Journal := List StoreOp

/-- A client on the journal whose `Put` succeeds and whose `Delete` fails
(the request is not applied). -/
def flakyClient : Client Journal where
  Put s k v := (s ++ [.Put k v], none)
  Delete s _ := (s, some "etcdserver: request timed out")

/-- A client on the journal on which every call succeeds. -/
def steadyClient : Client Journal where
  Put s k v := (s ++ [.Put k v], none)
  Delete s k := (s ++ [.Delete k], none)

/-- A fetch that succeeds with the given objects. -/
def fetchOk {α : Type} (objs : List α) : Finder Journal α where
  DefaultDatacenter s := (s, .ok ())
  ObjectList s := (s, .ok (objs.map fun _ => ⟨"ref"⟩))
  Retrieve s _ := (s, .ok objs)

/-- A fetch whose property retrieval fails. -/
def fetchFails {α : Type} : Finder Journal α where
  DefaultDatacenter s := (s, .ok ())
  ObjectList s := (s, .ok [])
  Retrieve s _ := (s, .error "network error")

/-- A world with the given client and fetches; the environment holds the
endpoint, root path and domain name of the examples. -/
def exampleWorld (cli : Client Journal) (vmFinder : Finder Journal VirtualMachine)
    (hostFinder : Finder Journal HostSystem) : World Journal where
  Getenv name :=
    if name = "etcdEndpoint" then "etcd:2379"
    else if name = "etcdPluginRootPath" then "/skydns/"
    else if name = "etcdDomainName" then "local"
    else ""
  Parse _ := .ok ()
  NewClient s := (s, .ok ())
  vmFinder := vmFinder
  hostFinder := hostFinder
  New s _ := (s, .ok cli)

/-! ## Theorems -/

/-! ### The short name -/

theorem isPrefixOf_dot (c : Char) (cs : List Char) :
    List.isPrefixOf ['.'] (c :: cs) = (c == '.') := by
  simp [List.isPrefixOf, eq_comm]

theorem IndexChars_dot (s : List Char) :
    strings.IndexChars s ['.'] =
      if '.' ∈ s then some (beforeDot s).length else none := by
  induction s with
  | nil => simp [strings.IndexChars]
  | cons c cs ih =>
    rw [strings.IndexChars, isPrefixOf_dot]
    by_cases h : c = '.'
    · subst h; simp [beforeDot]
    · have h' : ¬ ('.' = c) := fun e => h e.symm
      simp [h, h', ih, beforeDot]

theorem beforeDot_eq_self {s : List Char} (h : '.' ∉ s) : beforeDot s = s := by
  induction s with
  | nil => rfl
  | cons c cs ih =>
    simp only [List.mem_cons, not_or] at h
    have h1 : c ≠ '.' := fun e => h.1 e.symm
    have := ih h.2
    simp only [beforeDot] at this ⊢
    rw [List.takeWhile_cons_of_pos (by simpa using h1), this]

theorem take_beforeDot (s : List Char) : s.take (beforeDot s).length = beforeDot s := by
  induction s with
  | nil => rfl
  | cons c cs ih =>
    by_cases h : c = '.'
    · subst h; simp [beforeDot]
    · simp [beforeDot, h]; exact ih

theorem genSplitLoop_head (n : Nat) (s : List Char) (h : n = 0 → '.' ∉ s) :
    ∃ tl, strings.genSplitLoop ['.'] n s = beforeDot s :: tl := by
  cases n with
  | zero => exact ⟨[], by rw [strings.genSplitLoop, beforeDot_eq_self (h rfl)]⟩
  | succ n =>
    rw [strings.genSplitLoop, IndexChars_dot]
    by_cases hd : '.' ∈ s
    · simp [hd, take_beforeDot]
    · simp [hd, beforeDot_eq_self hd]

theorem genSplit_dot_head (s : List Char) :
    ∃ tl, strings.genSplit s ['.'] = beforeDot s :: tl := by
  unfold strings.genSplit
  simp only [List.cons_ne_nil, ↓reduceIte, reduceCtorEq]
  apply genSplitLoop_head
  intro h0 hd
  have hc : strings.CountChars s ['.'] ≥ 1 := by
    simp [strings.CountChars, strings.CountLoop, IndexChars_dot, hd]
  have hl : s.length ≥ 1 := by
    cases s with
    | nil => simp at hd
    | cons c cs => simp
  split at h0 <;> omega

theorem dot_not_mem_beforeDot (s : List Char) : '.' ∉ beforeDot s := by
  intro h
  have := List.mem_takeWhile_imp h
  simp at this

theorem dropWhile_dot {s : List Char} (h : '.' ∈ s) :
    ∃ tl, s.dropWhile (· != '.') = '.' :: tl := by
  induction s with
  | nil => simp at h
  | cons c cs ih =>
    by_cases hc : c = '.'
    · subst hc; exact ⟨cs, by simp⟩
    · have hm : '.' ∈ cs := by
        rcases List.mem_cons.1 h with e | e
        · exact absurd e.symm hc
        · exact e
      obtain ⟨tl, htl⟩ := ih hm
      exact ⟨tl, by rw [List.dropWhile_cons_of_pos (by simpa using hc), htl]⟩

theorem prefix_length_le_beforeDot (p : List Char) :
    ∀ s : List Char, p <+: s → '.' ∉ p → p.length ≤ (beforeDot s).length := by
  induction p with
  | nil => intro s _ _; simp
  | cons c cs ih =>
    intro s hp hd
    simp only [List.mem_cons, not_or] at hd
    cases s with
    | nil => simp at hp
    | cons d ds =>
      rw [List.cons_prefix_cons] at hp
      obtain ⟨rfl, hp⟩ := hp
      have hc : c ≠ '.' := fun e => hd.1 e.symm
      have := ih ds hp hd.2
      simp only [beforeDot] at this ⊢
      rw [List.takeWhile_cons_of_pos (by simpa using hc)]
      simpa using this

theorem Split_dot (name : String) :
    ∃ tl, strings.Split name "." = String.mk (beforeDot name.data) :: tl := by
  obtain ⟨tl, h⟩ := genSplit_dot_head name.data
  refine ⟨tl.map String.mk, ?_⟩
  have hs : (".": String).data = ['.'] := rfl
  simp [strings.Split, hs, h]

theorem shortName_eq_beforeDot (name : String) :
    shortName? name = some (String.mk (beforeDot name.data)) := by
  obtain ⟨tl, h⟩ := Split_dot name
  simp [shortName?, h]

/-- C3: for every configured name (the empty one and one starting with a dot
included) the split of the name at dots is never empty, so the short name
`strings.Split(name, ".")[0]` is defined; it is a prefix of the name without
a dot, it is the whole name when the name has no dot, otherwise the name is
the short name, a dot and a tail, and no dot-free prefix of the name is
longer. -/
theorem shortName_longest_dot_free_prefix (name : String) :
    strings.Split name "." ≠ [] ∧
    ∃ short rest : String,
      shortName? name = some short ∧
      name = short ++ rest ∧
      '.' ∉ short.data ∧
      ('.' ∉ name.data → short = name) ∧
      ('.' ∈ name.data → ∃ tail : String, name = short ++ "." ++ tail) ∧
      ∀ p : String, p.data <+: name.data → '.' ∉ p.data → p.length ≤ short.length := by
  refine ⟨?_, String.mk (beforeDot name.data),
    String.mk (name.data.dropWhile (· != '.')), shortName_eq_beforeDot name, ?_, ?_, ?_, ?_, ?_⟩
  · obtain ⟨tl, h⟩ := Split_dot name
    simp [h]
  · apply String.ext
    simp [beforeDot, List.takeWhile_append_dropWhile]
  · exact dot_not_mem_beforeDot _
  · intro h
    apply String.ext
    simpa using beforeDot_eq_self h
  · intro h
    obtain ⟨tl, htl⟩ := dropWhile_dot h
    refine ⟨String.mk tl, ?_⟩
    apply String.ext
    have hs : (".": String).data = ['.'] := rfl
    have := List.takeWhile_append_dropWhile (· != '.') name.data
    rw [htl] at this
    simp [hs, beforeDot, this]
  · intro p hp hd
    exact prefix_length_le_beforeDot p.data name.data hp hd

/-! ### The operation derived from one entry -/

theorem len_ne_zero (ip : String) : (ip.utf8ByteSize != 0) = true ↔ ip ≠ "" := by
  cases ip with
  | mk cs =>
    simp only [String.utf8ByteSize_mk, bne_iff_ne, ne_eq, String.utf8Len_eq_zero]
    constructor
    · intro h e; exact h (congrArg String.data e)
    · intro h e; exact h (by rw [e])

theorem index_Split_dot (name : String) :
    index (strings.Split name ".") 0 = .ok (String.mk (beforeDot name.data)) := by
  obtain ⟨tl, h⟩ := Split_dot name
  simp [index, h]

theorem vm_operation_put (rootPath etcdDomainName : String) (vm : VirtualMachine)
    (config : VirtualMachineConfigInfo) (guest : VirtualMachineGuestSummary)
    (hc : vm.Config = some config) (hg : vm.Summary.Guest = some guest)
    (hip : guest.IpAddress ≠ "") :
    SyncVMRecord.operation rootPath etcdDomainName vm =
      .ok (.Put (recordKey rootPath etcdDomainName (String.mk (beforeDot config.Name.data)))
        (recordValue guest.IpAddress)) := by
  have h := (len_ne_zero guest.IpAddress).2 hip
  simp [SyncVMRecord.operation, hc, hg, deref, h, index_Split_dot, bind, Except.bind, pure,
    Except.pure]

theorem vm_operation_delete (rootPath etcdDomainName : String) (vm : VirtualMachine)
    (config : VirtualMachineConfigInfo) (guest : VirtualMachineGuestSummary)
    (hc : vm.Config = some config) (hg : vm.Summary.Guest = some guest)
    (hip : guest.IpAddress = "") :
    SyncVMRecord.operation rootPath etcdDomainName vm =
      .ok (.Delete (recordKey rootPath etcdDomainName
        (String.mk (beforeDot config.Name.data)))) := by
  have h : ¬ ((guest.IpAddress.utf8ByteSize != 0) = true) :=
    fun h => (len_ne_zero guest.IpAddress).1 h hip
  simp only [Bool.not_eq_true] at h
  simp [SyncVMRecord.operation, hc, hg, deref, h, index_Split_dot, bind, Except.bind, pure,
    Except.pure]

theorem host_operation_put (rootPath etcdDomainName : String) (hs : HostSystem)
    (hip : hs.Summary.ManagementServerIp ≠ "") :
    SyncHostRecord.operation rootPath etcdDomainName hs =
      .ok (.Put (recordKey rootPath etcdDomainName
        (String.mk (beforeDot hs.Summary.Config.Name.data)))
        (recordValue hs.Summary.ManagementServerIp)) := by
  have h := (len_ne_zero hs.Summary.ManagementServerIp).2 hip
  simp [SyncHostRecord.operation, h, index_Split_dot, bind, Except.bind, pure, Except.pure]

theorem host_operation_delete (rootPath etcdDomainName : String) (hs : HostSystem)
    (hip : hs.Summary.ManagementServerIp = "") :
    SyncHostRecord.operation rootPath etcdDomainName hs =
      .ok (.Delete (recordKey rootPath etcdDomainName
        (String.mk (beforeDot hs.Summary.Config.Name.data)))) := by
  have h : ¬ ((hs.Summary.ManagementServerIp.utf8ByteSize != 0) = true) :=
    fun h => (len_ne_zero hs.Summary.ManagementServerIp).1 h hip
  simp only [Bool.not_eq_true] at h
  simp [SyncHostRecord.operation, h, index_Split_dot, bind, Except.bind, pure, Except.pure]

theorem syncLoop_singleton {σ α : Type} (cli : Client σ)
    (operation : α → Except Panic StoreOp) (e : α) (op : StoreOp) (s : σ)
    (h : operation e = .ok op) : (syncLoop cli operation [e] s).issued = [op] := by
  simp only [syncLoop, h]
  rcases hx : cli.exec s op with ⟨s', _ | err⟩ <;> simp

/-- With a client at hand, a VM whose configuration and guest summary are
present and whose guest IP is non-empty, and a host whose management IP is
non-empty, each make their pass issue exactly one operation, the `Put` of
`rootPath ++ etcdDomainName ++ "/" ++ short` (short the short name of the
configured name) with the value `{"host":"<ip>","ttl":60}`, whatever the
world and the client are. -/
theorem nonempty_ip_issues_put {σ : Type} (New : σ → String → σ × Except Error (Client σ))
    (cli : Client σ) (s s' : σ) (etcdEndpoint rootPath etcdDomainName : String)
    (vm : VirtualMachine) (config : VirtualMachineConfigInfo)
    (guest : VirtualMachineGuestSummary) (hs : HostSystem)
    (hNew : New s etcdEndpoint = (s', .ok cli))
    (hc : vm.Config = some config) (hg : vm.Summary.Guest = some guest)
    (hvm : guest.IpAddress ≠ "") (hhs : hs.Summary.ManagementServerIp ≠ "") :
    (∃ short, shortName? config.Name = some short ∧
      SyncVMRecord.operation rootPath etcdDomainName vm =
        .ok (.Put (rootPath ++ etcdDomainName ++ "/" ++ short)
          ("\x7b\"host\":\"" ++ guest.IpAddress ++ "\",\"ttl\":60\x7d")) ∧
      (SyncVMRecord New etcdEndpoint rootPath etcdDomainName [vm] s).issued =
        [.Put (rootPath ++ etcdDomainName ++ "/" ++ short)
          ("\x7b\"host\":\"" ++ guest.IpAddress ++ "\",\"ttl\":60\x7d")]) ∧
    (∃ short, shortName? hs.Summary.Config.Name = some short ∧
      SyncHostRecord.operation rootPath etcdDomainName hs =
        .ok (.Put (rootPath ++ etcdDomainName ++ "/" ++ short)
          ("\x7b\"host\":\"" ++ hs.Summary.ManagementServerIp ++ "\",\"ttl\":60\x7d")) ∧
      (SyncHostRecord New etcdEndpoint rootPath etcdDomainName [hs] s).issued =
        [.Put (rootPath ++ etcdDomainName ++ "/" ++ short)
          ("\x7b\"host\":\"" ++ hs.Summary.ManagementServerIp ++ "\",\"ttl\":60\x7d")]) := by
  have h1 := vm_operation_put rootPath etcdDomainName vm config guest hc hg hvm
  have h2 := host_operation_put rootPath etcdDomainName hs hhs
  refine ⟨⟨_, shortName_eq_beforeDot _, h1, ?_⟩, ⟨_, shortName_eq_beforeDot _, h2, ?_⟩⟩
  · simp only [SyncVMRecord, hNew]
    exact syncLoop_singleton cli _ vm _ s' h1
  · simp only [SyncHostRecord, hNew]
    exact syncLoop_singleton cli _ hs _ s' h2

/-- Scenarios A and C: the VM `app1.local` with guest IP `10.0.0.5` and the
host `esxi01.dc.local` with management IP `192.168.1.10`. -/
theorem nonempty_ip_issues_put_witness :
    (∃ short, shortName? "app1.local" = some short ∧
      SyncVMRecord.operation "/skydns/" "local" ⟨some ⟨"app1.local"⟩, ⟨some ⟨"10.0.0.5"⟩⟩⟩ =
        .ok (.Put ("/skydns/" ++ "local" ++ "/" ++ short)
          ("\x7b\"host\":\"" ++ "10.0.0.5" ++ "\",\"ttl\":60\x7d")) ∧
      (SyncVMRecord kvNew "etcd:2379" "/skydns/" "local"
          [⟨some ⟨"app1.local"⟩, ⟨some ⟨"10.0.0.5"⟩⟩⟩] (fun _ => none)).issued =
        [.Put ("/skydns/" ++ "local" ++ "/" ++ short)
          ("\x7b\"host\":\"" ++ "10.0.0.5" ++ "\",\"ttl\":60\x7d")]) ∧
    (∃ short, shortName? "esxi01.dc.local" = some short ∧
      SyncHostRecord.operation "/skydns/" "local" ⟨⟨⟨"esxi01.dc.local"⟩, "192.168.1.10"⟩⟩ =
        .ok (.Put ("/skydns/" ++ "local" ++ "/" ++ short)
          ("\x7b\"host\":\"" ++ "192.168.1.10" ++ "\",\"ttl\":60\x7d")) ∧
      (SyncHostRecord kvNew "etcd:2379" "/skydns/" "local"
          [⟨⟨⟨"esxi01.dc.local"⟩, "192.168.1.10"⟩⟩] (fun _ => none)).issued =
        [.Put ("/skydns/" ++ "local" ++ "/" ++ short)
          ("\x7b\"host\":\"" ++ "192.168.1.10" ++ "\",\"ttl\":60\x7d")]) :=
  nonempty_ip_issues_put kvNew kvClient (fun _ => none) (fun _ => none) "etcd:2379"
    "/skydns/" "local" ⟨some ⟨"app1.local"⟩, ⟨some ⟨"10.0.0.5"⟩⟩⟩ ⟨"app1.local"⟩ ⟨"10.0.0.5"⟩
    ⟨⟨⟨"esxi01.dc.local"⟩, "192.168.1.10"⟩⟩ rfl rfl rfl (by decide) (by decide)

/-- With a client at hand, a VM whose configuration and guest summary are
present and whose guest IP is empty, and a host whose management IP is empty,
each make their pass issue exactly one operation, the `Delete` of
`rootPath ++ etcdDomainName ++ "/" ++ short`; no `Put` is issued. -/
theorem empty_ip_issues_delete {σ : Type} (New : σ → String → σ × Except Error (Client σ))
    (cli : Client σ) (s s' : σ) (etcdEndpoint rootPath etcdDomainName : String)
    (vm : VirtualMachine) (config : VirtualMachineConfigInfo)
    (guest : VirtualMachineGuestSummary) (hs : HostSystem)
    (hNew : New s etcdEndpoint = (s', .ok cli))
    (hc : vm.Config = some config) (hg : vm.Summary.Guest = some guest)
    (hvm : guest.IpAddress = "") (hhs : hs.Summary.ManagementServerIp = "") :
    (∃ short, shortName? config.Name = some short ∧
      SyncVMRecord.operation rootPath etcdDomainName vm =
        .ok (.Delete (rootPath ++ etcdDomainName ++ "/" ++ short)) ∧
      (SyncVMRecord New etcdEndpoint rootPath etcdDomainName [vm] s).issued =
        [.Delete (rootPath ++ etcdDomainName ++ "/" ++ short)]) ∧
    (∃ short, shortName? hs.Summary.Config.Name = some short ∧
      SyncHostRecord.operation rootPath etcdDomainName hs =
        .ok (.Delete (rootPath ++ etcdDomainName ++ "/" ++ short)) ∧
      (SyncHostRecord New etcdEndpoint rootPath etcdDomainName [hs] s).issued =
        [.Delete (rootPath ++ etcdDomainName ++ "/" ++ short)]) := by
  have h1 := vm_operation_delete rootPath etcdDomainName vm config guest hc hg hvm
  have h2 := host_operation_delete rootPath etcdDomainName hs hhs
  refine ⟨⟨_, shortName_eq_beforeDot _, h1, ?_⟩, ⟨_, shortName_eq_beforeDot _, h2, ?_⟩⟩
  · simp only [SyncVMRecord, hNew]
    exact syncLoop_singleton cli _ vm _ s' h1
  · simp only [SyncHostRecord, hNew]
    exact syncLoop_singleton cli _ hs _ s' h2

/-- Scenario B: the VM `vcls-1` with an empty guest IP (and a host without a
management IP). -/
theorem empty_ip_issues_delete_witness :
    (∃ short, shortName? "vcls-1" = some short ∧
      SyncVMRecord.operation "/skydns/" "local" ⟨some ⟨"vcls-1"⟩, ⟨some ⟨""⟩⟩⟩ =
        .ok (.Delete ("/skydns/" ++ "local" ++ "/" ++ short)) ∧
      (SyncVMRecord kvNew "etcd:2379" "/skydns/" "local"
          [⟨some ⟨"vcls-1"⟩, ⟨some ⟨""⟩⟩⟩] (fun _ => none)).issued =
        [.Delete ("/skydns/" ++ "local" ++ "/" ++ short)]) ∧
    (∃ short, shortName? "esxi02.dc.local" = some short ∧
      SyncHostRecord.operation "/skydns/" "local" ⟨⟨⟨"esxi02.dc.local"⟩, ""⟩⟩ =
        .ok (.Delete ("/skydns/" ++ "local" ++ "/" ++ short)) ∧
      (SyncHostRecord kvNew "etcd:2379" "/skydns/" "local"
          [⟨⟨⟨"esxi02.dc.local"⟩, ""⟩⟩] (fun _ => none)).issued =
        [.Delete ("/skydns/" ++ "local" ++ "/" ++ short)]) :=
  empty_ip_issues_delete kvNew kvClient (fun _ => none) (fun _ => none) "etcd:2379"
    "/skydns/" "local" ⟨some ⟨"vcls-1"⟩, ⟨some ⟨""⟩⟩⟩ ⟨"vcls-1"⟩ ⟨""⟩
    ⟨⟨⟨"esxi02.dc.local"⟩, ""⟩⟩ rfl rfl rfl rfl rfl

/-! ### The loop on the map store -/

theorem kvClient_exec (s : KV) (op : StoreOp) : kvClient.exec s op = (s.apply op, none) := by
  cases op <;> rfl

theorem syncLoop_kv {α : Type} (operation : α → Except Panic StoreOp) (l : List α) :
    ∀ s : KV, syncLoop kvClient operation l s =
      ⟨(okPrefix operation l).foldl KV.apply s, okPrefix operation l, okStatus operation l⟩ := by
  induction l with
  | nil => intro s; rfl
  | cons e rest ih =>
    intro s
    cases h : operation e with
    | error p => simp [syncLoop, okPrefix, okStatus, h]
    | ok op => simp [syncLoop, okPrefix, okStatus, h, kvClient_exec, ih]

theorem foldl_apply_lastWrite (k : String) (ops : List StoreOp) :
    ∀ s : KV, ops.foldl KV.apply s k =
      match lastWrite k ops with
      | some w => w
      | none => s k := by
  induction ops with
  | nil => intro s; rfl
  | cons op ops ih =>
    intro s
    rw [List.foldl_cons, ih]
    cases op with
    | Put k' v =>
      simp only [lastWrite]
      cases lastWrite k ops with
      | some w => rfl
      | none =>
        by_cases hk : k = k' <;> simp [hk, KV.apply, KV.put]
    | Delete k' =>
      simp only [lastWrite]
      cases lastWrite k ops with
      | some w => rfl
      | none =>
        by_cases hk : k = k' <;> simp [hk, KV.apply, KV.delete]

theorem foldl_apply_idem (ops : List StoreOp) (s : KV) :
    ops.foldl KV.apply (ops.foldl KV.apply s) = ops.foldl KV.apply s := by
  funext k
  rw [foldl_apply_lastWrite k ops (ops.foldl KV.apply s), foldl_apply_lastWrite k ops s]
  cases lastWrite k ops <;> rfl

theorem lastWrite_eq_none {k : String} {ops : List StoreOp}
    (h : ∀ op ∈ ops, op.key ≠ k) : lastWrite k ops = none := by
  induction ops with
  | nil => rfl
  | cons op ops ih =>
    have h1 := h op (List.mem_cons_self _ _)
    have h2 := ih (fun o ho => h o (List.mem_cons_of_mem _ ho))
    cases op with
    | Put k' v =>
      have : ¬ k = k' := fun e => h1 e.symm
      simp [lastWrite, h2, this]
    | Delete k' =>
      have : ¬ k = k' := fun e => h1 e.symm
      simp [lastWrite, h2, this]

theorem foldl_apply_frame {k : String} {ops : List StoreOp} (s : KV)
    (h : ∀ op ∈ ops, op.key ≠ k) : ops.foldl KV.apply s k = s k := by
  rw [foldl_apply_lastWrite, lastWrite_eq_none h]

theorem mem_okPrefix {α : Type} {operation : α → Except Panic StoreOp} {l : List α}
    {op : StoreOp} (h : op ∈ okPrefix operation l) : ∃ e ∈ l, operation e = .ok op := by
  induction l with
  | nil => simp [okPrefix] at h
  | cons e rest ih =>
    cases he : operation e with
    | error p => simp [okPrefix, he] at h
    | ok op' =>
      simp only [okPrefix, he, List.mem_cons] at h
      rcases h with rfl | h
      · exact ⟨e, List.mem_cons_self _ _, he⟩
      · obtain ⟨e', hm, h'⟩ := ih h
        exact ⟨e', List.mem_cons_of_mem _ hm, h'⟩

theorem okPrefix_append {α : Type} (operation : α → Except Panic StoreOp) (pre l : List α)
    (h : ∀ e ∈ pre, ∃ op, operation e = .ok op) :
    okPrefix operation (pre ++ l) = okPrefix operation pre ++ okPrefix operation l := by
  induction pre with
  | nil => rfl
  | cons e rest ih =>
    obtain ⟨op, hop⟩ := h e (List.mem_cons_self _ _)
    have := ih (fun e' he' => h e' (List.mem_cons_of_mem _ he'))
    simp [okPrefix, hop, this]

theorem syncLoop_kv_last {α : Type} (operation : α → Except Panic StoreOp)
    (pre post : List α) (e : α) (op : StoreOp) (s : KV)
    (hpre : ∀ e' ∈ pre, ∃ op', operation e' = .ok op')
    (he : operation e = .ok op)
    (hpost : ∀ e' ∈ post, ∀ op', operation e' = .ok op' → op'.key ≠ op.key) :
    (syncLoop kvClient operation (pre ++ e :: post) s).store op.key =
      match op with
      | .Put _ v => some v
      | .Delete _ => none := by
  rw [syncLoop_kv, okPrefix_append operation pre _ hpre]
  simp only [okPrefix, he, List.foldl_append, List.foldl_cons]
  rw [foldl_apply_frame]
  · cases op <;> simp [KV.apply, KV.put, KV.delete, StoreOp.key]
  · intro op' hop'
    obtain ⟨e', hm, h'⟩ := mem_okPrefix hop'
    exact hpost e' hm op' h'

theorem syncLoop_kv_frame {α : Type} (operation : α → Except Panic StoreOp)
    (l : List α) (s : KV) (k : String)
    (h : ∀ e ∈ l, ∀ op, operation e = .ok op → op.key ≠ k) :
    (syncLoop kvClient operation l s).store k = s k := by
  rw [syncLoop_kv]
  apply foldl_apply_frame
  intro op hop
  obtain ⟨e, hm, h'⟩ := mem_okPrefix hop
  exact h e hm op h'

theorem shortName_eq_iff (name short : String) :
    shortName? name = some short ↔ short = String.mk (beforeDot name.data) := by
  rw [shortName_eq_beforeDot]
  constructor
  · intro h; exact (Option.some.inj h).symm
  · intro h; rw [h]

theorem vm_operation_key (rootPath etcdDomainName : String) (vm : VirtualMachine)
    (op : StoreOp) (h : SyncVMRecord.operation rootPath etcdDomainName vm = .ok op) :
    ∃ config short, vm.Config = some config ∧ shortName? config.Name = some short ∧
      op.key = rootPath ++ etcdDomainName ++ "/" ++ short := by
  rcases vm with ⟨_ | config, ⟨_ | guest⟩⟩
  · simp [SyncVMRecord.operation, deref, bind, Except.bind] at h
  · by_cases hip : (guest.IpAddress.utf8ByteSize != 0) = true <;>
      simp [SyncVMRecord.operation, deref, bind, Except.bind, hip] at h
  · simp [SyncVMRecord.operation, deref, bind, Except.bind] at h
  · refine ⟨config, _, rfl, shortName_eq_beforeDot _, ?_⟩
    by_cases hip : guest.IpAddress = ""
    · rw [vm_operation_delete rootPath etcdDomainName _ config guest rfl rfl hip] at h
      cases h; rfl
    · rw [vm_operation_put rootPath etcdDomainName _ config guest rfl rfl hip] at h
      cases h; rfl

theorem host_operation_key (rootPath etcdDomainName : String) (hs : HostSystem)
    (op : StoreOp) (h : SyncHostRecord.operation rootPath etcdDomainName hs = .ok op) :
    ∃ short, shortName? hs.Summary.Config.Name = some short ∧
      op.key = rootPath ++ etcdDomainName ++ "/" ++ short := by
  refine ⟨_, shortName_eq_beforeDot _, ?_⟩
  by_cases hip : hs.Summary.ManagementServerIp = ""
  · rw [host_operation_delete rootPath etcdDomainName hs hip] at h
    cases h; rfl
  · rw [host_operation_put rootPath etcdDomainName hs hip] at h
    cases h; rfl

theorem SyncVMRecord_kv (etcdEndpoint rootPath etcdDomainName : String)
    (vms : List VirtualMachine) (s : KV) :
    SyncVMRecord kvNew etcdEndpoint rootPath etcdDomainName vms s =
      syncLoop kvClient (SyncVMRecord.operation rootPath etcdDomainName) vms s := rfl

theorem SyncHostRecord_kv (etcdEndpoint rootPath etcdDomainName : String)
    (hst : List HostSystem) (s : KV) :
    SyncHostRecord kvNew etcdEndpoint rootPath etcdDomainName hst s =
      syncLoop kvClient (SyncHostRecord.operation rootPath etcdDomainName) hst s := rfl

theorem reconcile_store (etcdEndpoint rootPath etcdDomainName : String)
    (vms : List VirtualMachine) (hosts : List HostSystem) :
    ∃ ops : List StoreOp, ∀ s : KV,
      (reconcile etcdEndpoint rootPath etcdDomainName vms hosts s).store =
        ops.foldl KV.apply s := by
  cases hst : okStatus (SyncVMRecord.operation rootPath etcdDomainName) vms with
  | returned =>
    refine ⟨okPrefix (SyncVMRecord.operation rootPath etcdDomainName) vms ++
      okPrefix (SyncHostRecord.operation rootPath etcdDomainName) hosts, fun s => ?_⟩
    simp [reconcile, SyncVMRecord_kv, SyncHostRecord_kv, syncLoop_kv, hst]
  | exited c =>
    refine ⟨okPrefix (SyncVMRecord.operation rootPath etcdDomainName) vms, fun s => ?_⟩
    simp [reconcile, SyncVMRecord_kv, syncLoop_kv, hst]
  | panicked p =>
    refine ⟨okPrefix (SyncVMRecord.operation rootPath etcdDomainName) vms, fun s => ?_⟩
    simp [reconcile, SyncVMRecord_kv, syncLoop_kv, hst]

/-- C6: on the map store (every put and delete succeeds), for every initial
content, root path, domain name, VM list and host list, running the
reconciliation a second time on the content the first run left gives exactly
the content the first run left. -/
theorem reconcile_idempotent (etcdEndpoint rootPath etcdDomainName : String)
    (vms : List VirtualMachine) (hosts : List HostSystem) (s : KV) :
    (reconcile etcdEndpoint rootPath etcdDomainName vms hosts
        (reconcile etcdEndpoint rootPath etcdDomainName vms hosts s).store).store =
      (reconcile etcdEndpoint rootPath etcdDomainName vms hosts s).store := by
  obtain ⟨ops, h⟩ := reconcile_store etcdEndpoint rootPath etcdDomainName vms hosts
  rw [h, h, foldl_apply_idem]

theorem vm_operation_ok (rootPath etcdDomainName : String) (vm : VirtualMachine)
    (h : vm.Config ≠ none ∧ vm.Summary.Guest ≠ none) :
    ∃ op, SyncVMRecord.operation rootPath etcdDomainName vm = .ok op := by
  rcases vm with ⟨_ | config, ⟨_ | guest⟩⟩
  · exact absurd rfl h.1
  · exact absurd rfl h.1
  · exact absurd rfl h.2
  · by_cases hip : guest.IpAddress = ""
    · exact ⟨_, vm_operation_delete rootPath etcdDomainName _ config guest rfl rfl hip⟩
    · exact ⟨_, vm_operation_put rootPath etcdDomainName _ config guest rfl rfl hip⟩

theorem host_operation_ok (rootPath etcdDomainName : String) (hs : HostSystem) :
    ∃ op, SyncHostRecord.operation rootPath etcdDomainName hs = .ok op := by
  by_cases hip : hs.Summary.ManagementServerIp = ""
  · exact ⟨_, host_operation_delete rootPath etcdDomainName hs hip⟩
  · exact ⟨_, host_operation_put rootPath etcdDomainName hs hip⟩

/-- On the map store, when a pass runs over a list in which the entry
`vm` (resp. `hs`) is the last one whose derived key is
`k = rootPath ++ etcdDomainName ++ "/" ++ short`, the content of the store at
`k` after the pass is decided by that entry alone: the value
`{"host":"<ip>","ttl":60}` when its IP is non-empty, nothing when it is
empty, whatever the earlier entries wrote.  For the VM pass the entries
before `vm` have their configuration and guest summary set. -/
theorem last_entry_decides_key (etcdEndpoint rootPath etcdDomainName : String) (s : KV)
    (pre post : List VirtualMachine) (vm : VirtualMachine)
    (config : VirtualMachineConfigInfo) (guest : VirtualMachineGuestSummary)
    (short : String)
    (hpre : ∀ v ∈ pre, v.Config ≠ none ∧ v.Summary.Guest ≠ none)
    (hc : vm.Config = some config) (hg : vm.Summary.Guest = some guest)
    (hshort : shortName? config.Name = some short)
    (hpost : ∀ v ∈ post, ∀ c n, v.Config = some c → shortName? c.Name = some n →
      rootPath ++ etcdDomainName ++ "/" ++ n ≠ rootPath ++ etcdDomainName ++ "/" ++ short)
    (hpre' hpost' : List HostSystem) (hs : HostSystem) (short' : String)
    (hshort' : shortName? hs.Summary.Config.Name = some short')
    (hposth : ∀ h ∈ hpost', ∀ n, shortName? h.Summary.Config.Name = some n →
      rootPath ++ etcdDomainName ++ "/" ++ n ≠ rootPath ++ etcdDomainName ++ "/" ++ short') :
    (SyncVMRecord kvNew etcdEndpoint rootPath etcdDomainName (pre ++ vm :: post) s).store
        (rootPath ++ etcdDomainName ++ "/" ++ short) =
      (if guest.IpAddress = "" then none
       else some ("\x7b\"host\":\"" ++ guest.IpAddress ++ "\",\"ttl\":60\x7d")) ∧
    (SyncHostRecord kvNew etcdEndpoint rootPath etcdDomainName (hpre' ++ hs :: hpost') s).store
        (rootPath ++ etcdDomainName ++ "/" ++ short') =
      (if hs.Summary.ManagementServerIp = "" then none
       else some ("\x7b\"host\":\"" ++ hs.Summary.ManagementServerIp ++
         "\",\"ttl\":60\x7d")) := by
  rw [shortName_eq_iff] at hshort hshort'
  subst hshort hshort'
  constructor
  · rw [SyncVMRecord_kv]
    by_cases hip : guest.IpAddress = ""
    · have hop := vm_operation_delete rootPath etcdDomainName vm config guest hc hg hip
      have := syncLoop_kv_last _ pre post vm _ s
        (fun v hv => vm_operation_ok rootPath etcdDomainName v (hpre v hv)) hop
        (by
          intro v hv op hvop
          obtain ⟨c, n, h1, h2, h3⟩ := vm_operation_key rootPath etcdDomainName v op hvop
          rw [h3]
          exact hpost v hv c n h1 h2)
      simpa [hip, StoreOp.key, recordKey] using this
    · have hop := vm_operation_put rootPath etcdDomainName vm config guest hc hg hip
      have := syncLoop_kv_last _ pre post vm _ s
        (fun v hv => vm_operation_ok rootPath etcdDomainName v (hpre v hv)) hop
        (by
          intro v hv op hvop
          obtain ⟨c, n, h1, h2, h3⟩ := vm_operation_key rootPath etcdDomainName v op hvop
          rw [h3]
          exact hpost v hv c n h1 h2)
      simpa [hip, StoreOp.key, recordKey, recordValue] using this
  · rw [SyncHostRecord_kv]
    by_cases hip : hs.Summary.ManagementServerIp = ""
    · have hop := host_operation_delete rootPath etcdDomainName hs hip
      have := syncLoop_kv_last _ hpre' hpost' hs _ s
        (fun v _ => host_operation_ok rootPath etcdDomainName v) hop
        (by
          intro v hv op hvop
          obtain ⟨n, h2, h3⟩ := host_operation_key rootPath etcdDomainName v op hvop
          rw [h3]
          exact hposth v hv n h2)
      simpa [hip, StoreOp.key, recordKey] using this
    · have hop := host_operation_put rootPath etcdDomainName hs hip
      have := syncLoop_kv_last _ hpre' hpost' hs _ s
        (fun v _ => host_operation_ok rootPath etcdDomainName v) hop
        (by
          intro v hv op hvop
          obtain ⟨n, h2, h3⟩ := host_operation_key rootPath etcdDomainName v op hvop
          rw [h3]
          exact hposth v hv n h2)
      simpa [hip, StoreOp.key, recordKey, recordValue] using this

/-- C10: on the map store, a key that is not
`rootPath ++ etcdDomainName ++ "/" ++ short` for the short name of any entry
of the list holds after `SyncVMRecord` (resp. `SyncHostRecord`) what it held
before: the same value or the same absence. -/
theorem pass_leaves_other_keys (etcdEndpoint rootPath etcdDomainName : String) (s : KV)
    (vms : List VirtualMachine) (hst : List HostSystem) (k : String)
    (hvm : ∀ vm ∈ vms, ∀ config short, vm.Config = some config →
      shortName? config.Name = some short → k ≠ rootPath ++ etcdDomainName ++ "/" ++ short)
    (hhs : ∀ hs ∈ hst, ∀ short, shortName? hs.Summary.Config.Name = some short →
      k ≠ rootPath ++ etcdDomainName ++ "/" ++ short) :
    (SyncVMRecord kvNew etcdEndpoint rootPath etcdDomainName vms s).store k = s k ∧
    (SyncHostRecord kvNew etcdEndpoint rootPath etcdDomainName hst s).store k = s k := by
  constructor
  · rw [SyncVMRecord_kv]
    apply syncLoop_kv_frame
    intro vm hm op hop
    obtain ⟨c, n, h1, h2, h3⟩ := vm_operation_key rootPath etcdDomainName vm op hop
    rw [h3]
    exact fun e => hvm vm hm c n h1 h2 e.symm
  · rw [SyncHostRecord_kv]
    apply syncLoop_kv_frame
    intro hs hm op hop
    obtain ⟨n, h2, h3⟩ := host_operation_key rootPath etcdDomainName hs op hop
    rw [h3]
    exact fun e => hhs hs hm n h2 e.symm

/-- Two VMs and two hosts share a short name; the later one decides.  The
store starts with a stale value at both keys. -/
theorem last_entry_decides_key_witness :
    (SyncVMRecord kvNew "etcd:2379" "/skydns/" "local"
        ([⟨some ⟨"app1.old"⟩, ⟨some ⟨"10.0.0.1"⟩⟩⟩] ++
          ⟨some ⟨"app1.local"⟩, ⟨some ⟨"10.0.0.5"⟩⟩⟩ :: [⟨some ⟨"db1"⟩, ⟨some ⟨""⟩⟩⟩])
        (fun _ => some "stale")).store ("/skydns/" ++ "local" ++ "/" ++ "app1") =
      (if (VirtualMachineGuestSummary.mk "10.0.0.5").IpAddress = "" then none
       else some ("\x7b\"host\":\"" ++ (VirtualMachineGuestSummary.mk "10.0.0.5").IpAddress ++
         "\",\"ttl\":60\x7d")) ∧
    (SyncHostRecord kvNew "etcd:2379" "/skydns/" "local"
        ([⟨⟨⟨"esxi01.a"⟩, "192.168.1.9"⟩⟩] ++ ⟨⟨⟨"esxi01.dc.local"⟩, ""⟩⟩ :: [])
        (fun _ => some "stale")).store ("/skydns/" ++ "local" ++ "/" ++ "esxi01") =
      (if (HostSystem.mk ⟨⟨"esxi01.dc.local"⟩, ""⟩).Summary.ManagementServerIp = "" then none
       else some ("\x7b\"host\":\"" ++
         (HostSystem.mk ⟨⟨"esxi01.dc.local"⟩, ""⟩).Summary.ManagementServerIp ++
         "\",\"ttl\":60\x7d")) :=
  last_entry_decides_key "etcd:2379" "/skydns/" "local" (fun _ => some "stale")
    [⟨some ⟨"app1.old"⟩, ⟨some ⟨"10.0.0.1"⟩⟩⟩] [⟨some ⟨"db1"⟩, ⟨some ⟨""⟩⟩⟩]
    ⟨some ⟨"app1.local"⟩, ⟨some ⟨"10.0.0.5"⟩⟩⟩ ⟨"app1.local"⟩ ⟨"10.0.0.5"⟩ "app1"
    (by intro v hv; simp only [List.mem_singleton] at hv; subst hv; simp)
    rfl rfl (by decide)
    (by
      intro v hv c n hc hn
      simp only [List.mem_singleton] at hv
      subst hv
      cases hc
      rw [show shortName? "db1" = some "db1" from by decide] at hn
      cases hn
      decide)
    [⟨⟨⟨"esxi01.a"⟩, "192.168.1.9"⟩⟩] [] ⟨⟨⟨"esxi01.dc.local"⟩, ""⟩⟩ "esxi01" (by decide)
    (by intro h hh; simp at hh)

/-- A record left by an object that is no longer in the inventory survives
both passes. -/
theorem pass_leaves_other_keys_witness :
    (SyncVMRecord kvNew "etcd:2379" "/skydns/" "local"
        [⟨some ⟨"app1.local"⟩, ⟨some ⟨"10.0.0.5"⟩⟩⟩, ⟨none, ⟨none⟩⟩]
        (fun k => if k = "/skydns/local/gone" then some "left behind" else none)).store
        "/skydns/local/gone" =
      (fun k => if k = "/skydns/local/gone" then some "left behind" else none)
        "/skydns/local/gone" ∧
    (SyncHostRecord kvNew "etcd:2379" "/skydns/" "local" [⟨⟨⟨"esxi01.dc.local"⟩, ""⟩⟩]
        (fun k => if k = "/skydns/local/gone" then some "left behind" else none)).store
        "/skydns/local/gone" =
      (fun k => if k = "/skydns/local/gone" then some "left behind" else none)
        "/skydns/local/gone" :=
  pass_leaves_other_keys "etcd:2379" "/skydns/" "local"
    (fun k => if k = "/skydns/local/gone" then some "left behind" else none)
    [⟨some ⟨"app1.local"⟩, ⟨some ⟨"10.0.0.5"⟩⟩⟩, ⟨none, ⟨none⟩⟩]
    [⟨⟨⟨"esxi01.dc.local"⟩, ""⟩⟩] "/skydns/local/gone"
    (by
      intro vm hm c n hc hn
      simp only [List.mem_cons, List.mem_singleton, List.not_mem_nil, or_false] at hm
      rcases hm with rfl | rfl
      · cases hc
        rw [show shortName? "app1.local" = some "app1" from by decide] at hn
        cases hn
        decide
      · cases hc)
    (by
      intro hs hm n hn
      simp only [List.mem_singleton] at hm
      subst hm
      rw [show shortName? "esxi01.dc.local" = some "esxi01" from by decide] at hn
      cases hn
      decide)

/-! ### The loop on an arbitrary client -/

theorem syncLoop_append {σ α : Type} (cli : Client σ) (operation : α → Except Panic StoreOp)
    (pre l : List α) :
    ∀ s : σ, (syncLoop cli operation pre s).status = .returned →
      syncLoop cli operation (pre ++ l) s =
        ⟨(syncLoop cli operation l (syncLoop cli operation pre s).store).store,
         (syncLoop cli operation pre s).issued ++
           (syncLoop cli operation l (syncLoop cli operation pre s).store).issued,
         (syncLoop cli operation l (syncLoop cli operation pre s).store).status⟩ := by
  induction pre with
  | nil => intro s _; rfl
  | cons e rest ih =>
    intro s h
    cases he : operation e with
    | error p => simp [syncLoop, he] at h
    | ok op =>
      rcases hx : cli.exec s op with ⟨s', _ | err⟩
      · simp only [syncLoop, he, hx] at h
        simp [syncLoop, he, hx, ih s' h]
      · simp [syncLoop, he, hx] at h

theorem syncLoop_returned_issued {σ α : Type} (cli : Client σ)
    (operation : α → Except Panic StoreOp) (l : List α) :
    ∀ s : σ, (syncLoop cli operation l s).status = .returned →
      (syncLoop cli operation l s).issued.map Except.ok = l.map operation := by
  induction l with
  | nil => intro s _; rfl
  | cons e rest ih =>
    intro s h
    cases he : operation e with
    | error p => simp [syncLoop, he] at h
    | ok op =>
      rcases hx : cli.exec s op with ⟨s', _ | err⟩
      · simp only [syncLoop, he, hx] at h
        simp [syncLoop, he, hx, ih s' h]
      · simp [syncLoop, he, hx] at h

theorem syncLoop_fail_head {σ α : Type} (cli : Client σ)
    (operation : α → Except Panic StoreOp) (e : α) (post : List α) (op : StoreOp) (s : σ)
    (err : Error) (he : operation e = .ok op) (hx : (cli.exec s op).2 = some err) :
    syncLoop cli operation (e :: post) s = ⟨(cli.exec s op).1, [op], .exited 1⟩ := by
  rcases hy : cli.exec s op with ⟨s', _ | err'⟩
  · rw [hy] at hx; cases hx
  · simp [syncLoop, he, hy]

theorem syncLoop_first_failure {σ α : Type} (cli : Client σ)
    (operation : α → Except Panic StoreOp) (pre post : List α) (e : α) (op : StoreOp)
    (s : σ) (err : Error)
    (hpre : (syncLoop cli operation pre s).status = .returned)
    (he : operation e = .ok op)
    (hx : (cli.exec (syncLoop cli operation pre s).store op).2 = some err) :
    (syncLoop cli operation (pre ++ e :: post) s).issued =
        (syncLoop cli operation pre s).issued ++ [op] ∧
    (syncLoop cli operation (pre ++ e :: post) s).issued.map Except.ok =
        (pre ++ [e]).map operation ∧
    (syncLoop cli operation (pre ++ e :: post) s).issued.length = pre.length + 1 ∧
    (syncLoop cli operation (pre ++ e :: post) s).status = .exited 1 ∧
    (syncLoop cli operation (pre ++ e :: post) s).store =
        (cli.exec (syncLoop cli operation pre s).store op).1 := by
  have hi := syncLoop_returned_issued cli operation pre s hpre
  have hl : (syncLoop cli operation pre s).issued.length = pre.length := by
    have := congrArg List.length hi
    simpa using this
  rw [syncLoop_append cli operation pre _ s hpre,
    syncLoop_fail_head cli operation e post op _ err he hx]
  refine ⟨rfl, ?_, ?_, rfl, rfl⟩
  · simp [hi, he]
  · simp [hl]

theorem syncLoop_exitCode {σ α : Type} (cli : Client σ)
    (operation : α → Except Panic StoreOp) (l : List α) :
    ∀ s : σ, (syncLoop cli operation l s).status ≠ .returned →
      (syncLoop cli operation l s).status.exitCode ≠ 0 := by
  induction l with
  | nil => intro s h; exact absurd rfl h
  | cons e rest ih =>
    intro s h
    cases he : operation e with
    | error p => simp [syncLoop, he, Status.exitCode]
    | ok op =>
      rcases hx : cli.exec s op with ⟨s', _ | err⟩
      · simp only [syncLoop, he, hx] at h ⊢
        exact ih s' h
      · simp [syncLoop, he, hx, Status.exitCode]

theorem SyncVMRecord_exitCode {σ : Type} (New : σ → String → σ × Except Error (Client σ))
    (etcdEndpoint rootPath etcdDomainName : String) (vms : List VirtualMachine) (s : σ)
    (h : (SyncVMRecord New etcdEndpoint rootPath etcdDomainName vms s).status ≠ .returned) :
    (SyncVMRecord New etcdEndpoint rootPath etcdDomainName vms s).status.exitCode ≠ 0 := by
  unfold SyncVMRecord at h ⊢
  rcases hn : New s etcdEndpoint with ⟨s', err | cli⟩
  · simp [Status.exitCode]
  · simp only [hn] at h ⊢
    exact syncLoop_exitCode cli _ vms s' h

theorem SyncHostRecord_exitCode {σ : Type} (New : σ → String → σ × Except Error (Client σ))
    (etcdEndpoint rootPath etcdDomainName : String) (hst : List HostSystem) (s : σ)
    (h : (SyncHostRecord New etcdEndpoint rootPath etcdDomainName hst s).status ≠ .returned) :
    (SyncHostRecord New etcdEndpoint rootPath etcdDomainName hst s).status.exitCode ≠ 0 := by
  unfold SyncHostRecord at h ⊢
  rcases hn : New s etcdEndpoint with ⟨s', err | cli⟩
  · simp [Status.exitCode]
  · simp only [hn] at h ⊢
    exact syncLoop_exitCode cli _ hst s' h

theorem main_stops_after_vm_pass {σ : Type} (w : World σ) (s sc sf : σ)
    (vms : List VirtualMachine)
    (hconn : ConnectTovCenter w (w.Getenv "vCSAHostname") s = (sc, .ok ()))
    (hfetch : GetAllVMs w.vmFinder sc = (sf, .ok vms))
    (hst : (SyncVMRecord w.New (w.Getenv "etcdEndpoint") (w.Getenv "etcdPluginRootPath")
      (w.Getenv "etcdDomainName") vms sf).status ≠ .returned) :
    (main w s).store = (SyncVMRecord w.New (w.Getenv "etcdEndpoint")
        (w.Getenv "etcdPluginRootPath") (w.Getenv "etcdDomainName") vms sf).store ∧
    (main w s).issued = (SyncVMRecord w.New (w.Getenv "etcdEndpoint")
        (w.Getenv "etcdPluginRootPath") (w.Getenv "etcdDomainName") vms sf).issued ∧
    (main w s).status = (SyncVMRecord w.New (w.Getenv "etcdEndpoint")
        (w.Getenv "etcdPluginRootPath") (w.Getenv "etcdDomainName") vms sf).status := by
  cases h : (SyncVMRecord w.New (w.Getenv "etcdEndpoint") (w.Getenv "etcdPluginRootPath")
      (w.Getenv "etcdDomainName") vms sf).status with
  | returned => exact absurd h hst
  | exited c => simp [main, hconn, hfetch, h]
  | panicked p => simp [main, hconn, hfetch, h]

/-- C8: every put and delete may fail.  When the entries before `vm` (resp.
`hs`) were all synchronised (the pass over them returns) and the operation of
`vm` fails in the world they left, the pass over the whole list issues the
operations of the entries up to and including `vm`, in order and once each
(the failed one last, not repeated), issues nothing for the entries after
it, and ends in `os.Exit(1)`, a non-zero exit status.  In `main`, a VM pass
that does not return ends the process in the world the pass left, with the
operations and the status of the pass: no host fetch and no host pass
follow. -/
theorem first_write_failure_aborts {σ : Type}
    (New : σ → String → σ × Except Error (Client σ)) (cli : Client σ) (s s0 : σ)
    (etcdEndpoint rootPath etcdDomainName : String)
    (pre post : List VirtualMachine) (vm : VirtualMachine) (op : StoreOp) (err : Error)
    (hpre' hpost' : List HostSystem) (hs : HostSystem) (op' : StoreOp) (err' : Error)
    (w : World σ) (sm sc sf : σ) (vms : List VirtualMachine)
    (hNew : New s etcdEndpoint = (s0, .ok cli))
    (hpre : (SyncVMRecord New etcdEndpoint rootPath etcdDomainName pre s).status = .returned)
    (hop : SyncVMRecord.operation rootPath etcdDomainName vm = .ok op)
    (hfail : (cli.exec (SyncVMRecord New etcdEndpoint rootPath etcdDomainName pre s).store
      op).2 = some err)
    (hpreh : (SyncHostRecord New etcdEndpoint rootPath etcdDomainName hpre' s).status =
      .returned)
    (hoph : SyncHostRecord.operation rootPath etcdDomainName hs = .ok op')
    (hfailh : (cli.exec (SyncHostRecord New etcdEndpoint rootPath etcdDomainName hpre' s).store
      op').2 = some err')
    (hconn : ConnectTovCenter w (w.Getenv "vCSAHostname") sm = (sc, .ok ()))
    (hfetch : GetAllVMs w.vmFinder sc = (sf, .ok vms))
    (hst : (SyncVMRecord w.New (w.Getenv "etcdEndpoint") (w.Getenv "etcdPluginRootPath")
      (w.Getenv "etcdDomainName") vms sf).status ≠ .returned) :
    ((SyncVMRecord New etcdEndpoint rootPath etcdDomainName (pre ++ vm :: post) s).issued =
        (SyncVMRecord New etcdEndpoint rootPath etcdDomainName pre s).issued ++ [op] ∧
      (SyncVMRecord New etcdEndpoint rootPath etcdDomainName
          (pre ++ vm :: post) s).issued.map Except.ok =
        (pre ++ [vm]).map (SyncVMRecord.operation rootPath etcdDomainName) ∧
      (SyncVMRecord New etcdEndpoint rootPath etcdDomainName
          (pre ++ vm :: post) s).issued.length = pre.length + 1 ∧
      (SyncVMRecord New etcdEndpoint rootPath etcdDomainName
          (pre ++ vm :: post) s).status = .exited 1 ∧
      (SyncVMRecord New etcdEndpoint rootPath etcdDomainName
          (pre ++ vm :: post) s).status.exitCode ≠ 0) ∧
    ((SyncHostRecord New etcdEndpoint rootPath etcdDomainName (hpre' ++ hs :: hpost') s).issued =
        (SyncHostRecord New etcdEndpoint rootPath etcdDomainName hpre' s).issued ++ [op'] ∧
      (SyncHostRecord New etcdEndpoint rootPath etcdDomainName
          (hpre' ++ hs :: hpost') s).issued.map Except.ok =
        (hpre' ++ [hs]).map (SyncHostRecord.operation rootPath etcdDomainName) ∧
      (SyncHostRecord New etcdEndpoint rootPath etcdDomainName
          (hpre' ++ hs :: hpost') s).issued.length = hpre'.length + 1 ∧
      (SyncHostRecord New etcdEndpoint rootPath etcdDomainName
          (hpre' ++ hs :: hpost') s).status = .exited 1 ∧
      (SyncHostRecord New etcdEndpoint rootPath etcdDomainName
          (hpre' ++ hs :: hpost') s).status.exitCode ≠ 0) ∧
    ((main w sm).store = (SyncVMRecord w.New (w.Getenv "etcdEndpoint")
        (w.Getenv "etcdPluginRootPath") (w.Getenv "etcdDomainName") vms sf).store ∧
      (main w sm).issued = (SyncVMRecord w.New (w.Getenv "etcdEndpoint")
        (w.Getenv "etcdPluginRootPath") (w.Getenv "etcdDomainName") vms sf).issued ∧
      (main w sm).status = (SyncVMRecord w.New (w.Getenv "etcdEndpoint")
        (w.Getenv "etcdPluginRootPath") (w.Getenv "etcdDomainName") vms sf).status ∧
      (main w sm).status.exitCode ≠ 0) := by
  refine ⟨?_, ?_, ?_⟩
  · simp only [SyncVMRecord, hNew] at hpre hfail ⊢
    obtain ⟨h1, h2, h3, h4, _⟩ := syncLoop_first_failure cli _ pre post vm op s0 err hpre hop hfail
    refine ⟨h1, h2, h3, h4, ?_⟩
    rw [h4]; decide
  · simp only [SyncHostRecord, hNew] at hpreh hfailh ⊢
    obtain ⟨h1, h2, h3, h4, _⟩ :=
      syncLoop_first_failure cli _ hpre' hpost' hs op' s0 err' hpreh hoph hfailh
    refine ⟨h1, h2, h3, h4, ?_⟩
    rw [h4]; decide
  · obtain ⟨h1, h2, h3⟩ := main_stops_after_vm_pass w sm sc sf vms hconn hfetch hst
    refine ⟨h1, h2, h3, ?_⟩
    rw [h3]
    exact SyncVMRecord_exitCode w.New _ _ _ vms sf hst

/-- On a client whose deletes fail: the VM list `app1.local`, `vcls-1`
(no IP), `db1` stops at the delete for `vcls-1`; so does the host list at the
host without a management IP; and `main` ends there, the journal holding
only the first put. -/
theorem first_write_failure_aborts_witness :
    ((SyncVMRecord (fun s _ => (s, .ok flakyClient)) "etcd:2379" "/skydns/" "local"
        [⟨some ⟨"app1.local"⟩, ⟨some ⟨"10.0.0.5"⟩⟩⟩, ⟨some ⟨"vcls-1"⟩, ⟨some ⟨""⟩⟩⟩,
          ⟨some ⟨"db1"⟩, ⟨some ⟨"10.0.0.7"⟩⟩⟩] ([] : Journal)).issued =
      [.Put "/skydns/local/app1" "\x7b\"host\":\"10.0.0.5\",\"ttl\":60\x7d",
        .Delete "/skydns/local/vcls-1"]) ∧
    ((SyncVMRecord (fun s _ => (s, .ok flakyClient)) "etcd:2379" "/skydns/" "local"
        [⟨some ⟨"app1.local"⟩, ⟨some ⟨"10.0.0.5"⟩⟩⟩, ⟨some ⟨"vcls-1"⟩, ⟨some ⟨""⟩⟩⟩,
          ⟨some ⟨"db1"⟩, ⟨some ⟨"10.0.0.7"⟩⟩⟩] ([] : Journal)).status = .exited 1) ∧
    ((SyncHostRecord (fun s _ => (s, .ok flakyClient)) "etcd:2379" "/skydns/" "local"
        [⟨⟨⟨"esxi01.dc.local"⟩, "192.168.1.10"⟩⟩, ⟨⟨⟨"esxi02.dc.local"⟩, ""⟩⟩,
          ⟨⟨⟨"esxi03.dc.local"⟩, "192.168.1.12"⟩⟩] ([] : Journal)).issued =
      [.Put "/skydns/local/esxi01" "\x7b\"host\":\"192.168.1.10\",\"ttl\":60\x7d",
        .Delete "/skydns/local/esxi02"]) ∧
    ((main (exampleWorld flakyClient
        (fetchOk [⟨some ⟨"app1.local"⟩, ⟨some ⟨"10.0.0.5"⟩⟩⟩, ⟨some ⟨"vcls-1"⟩, ⟨some ⟨""⟩⟩⟩,
          ⟨some ⟨"db1"⟩, ⟨some ⟨"10.0.0.7"⟩⟩⟩])
        (fetchOk [⟨⟨⟨"esxi01.dc.local"⟩, "192.168.1.10"⟩⟩])) []).issued =
      [.Put "/skydns/local/app1" "\x7b\"host\":\"10.0.0.5\",\"ttl\":60\x7d",
        .Delete "/skydns/local/vcls-1"]) ∧
    ((main (exampleWorld flakyClient
        (fetchOk [⟨some ⟨"app1.local"⟩, ⟨some ⟨"10.0.0.5"⟩⟩⟩, ⟨some ⟨"vcls-1"⟩, ⟨some ⟨""⟩⟩⟩,
          ⟨some ⟨"db1"⟩, ⟨some ⟨"10.0.0.7"⟩⟩⟩])
        (fetchOk [⟨⟨⟨"esxi01.dc.local"⟩, "192.168.1.10"⟩⟩])) []).store =
      [.Put "/skydns/local/app1" "\x7b\"host\":\"10.0.0.5\",\"ttl\":60\x7d"]) ∧
    ((main (exampleWorld flakyClient
        (fetchOk [⟨some ⟨"app1.local"⟩, ⟨some ⟨"10.0.0.5"⟩⟩⟩, ⟨some ⟨"vcls-1"⟩, ⟨some ⟨""⟩⟩⟩,
          ⟨some ⟨"db1"⟩, ⟨some ⟨"10.0.0.7"⟩⟩⟩])
        (fetchOk [⟨⟨⟨"esxi01.dc.local"⟩, "192.168.1.10"⟩⟩])) []).status = .exited 1) := by
  have h := first_write_failure_aborts (fun s _ => (s, .ok flakyClient)) flakyClient
    ([] : Journal) [] "etcd:2379" "/skydns/" "local"
    [⟨some ⟨"app1.local"⟩, ⟨some ⟨"10.0.0.5"⟩⟩⟩] [⟨some ⟨"db1"⟩, ⟨some ⟨"10.0.0.7"⟩⟩⟩]
    ⟨some ⟨"vcls-1"⟩, ⟨some ⟨""⟩⟩⟩ (.Delete "/skydns/local/vcls-1")
    "etcdserver: request timed out"
    [⟨⟨⟨"esxi01.dc.local"⟩, "192.168.1.10"⟩⟩] [⟨⟨⟨"esxi03.dc.local"⟩, "192.168.1.12"⟩⟩]
    ⟨⟨⟨"esxi02.dc.local"⟩, ""⟩⟩ (.Delete "/skydns/local/esxi02")
    "etcdserver: request timed out"
    (exampleWorld flakyClient
      (fetchOk [⟨some ⟨"app1.local"⟩, ⟨some ⟨"10.0.0.5"⟩⟩⟩, ⟨some ⟨"vcls-1"⟩, ⟨some ⟨""⟩⟩⟩,
        ⟨some ⟨"db1"⟩, ⟨some ⟨"10.0.0.7"⟩⟩⟩])
      (fetchOk [⟨⟨⟨"esxi01.dc.local"⟩, "192.168.1.10"⟩⟩])) [] [] []
    [⟨some ⟨"app1.local"⟩, ⟨some ⟨"10.0.0.5"⟩⟩⟩, ⟨some ⟨"vcls-1"⟩, ⟨some ⟨""⟩⟩⟩,
      ⟨some ⟨"db1"⟩, ⟨some ⟨"10.0.0.7"⟩⟩⟩]
    rfl (by decide) rfl rfl (by decide) rfl rfl rfl rfl (by decide)
  exact ⟨h.1.1, h.1.2.2.2.1, h.2.1.1, h.2.2.2.1, h.2.2.1, h.2.2.2.2.1⟩

/-! ### One operation per entry -/

theorem syncLoop_all_ok {σ α : Type} (cli : Client σ) (operation : α → Except Panic StoreOp)
    (hcli : ∀ s op, (cli.exec s op).2 = none) (l : List α)
    (hl : ∀ e ∈ l, ∃ op, operation e = .ok op) :
    ∀ s : σ, (syncLoop cli operation l s).status = .returned := by
  induction l with
  | nil => intro s; rfl
  | cons e rest ih =>
    intro s
    obtain ⟨op, he⟩ := hl e (List.mem_cons_self _ _)
    have hx := hcli s op
    rcases hy : cli.exec s op with ⟨s', _ | err⟩
    · simp only [syncLoop, he, hy]
      exact ih (fun e' he' => hl e' (List.mem_cons_of_mem _ he')) s'
    · rw [hy] at hx; cases hx

/-- On a store on which every write succeeds, `SyncHostRecord` returns after
issuing exactly one operation per host, in list order, for every host
list. -/
theorem SyncHostRecord_one_operation_per_host {σ : Type}
    (New : σ → String → σ × Except Error (Client σ)) (cli : Client σ) (s s0 : σ)
    (etcdEndpoint rootPath etcdDomainName : String) (hst : List HostSystem)
    (hNew : New s etcdEndpoint = (s0, .ok cli))
    (hcli : ∀ s op, (cli.exec s op).2 = none) :
    (SyncHostRecord New etcdEndpoint rootPath etcdDomainName hst s).issued.map Except.ok =
        hst.map (SyncHostRecord.operation rootPath etcdDomainName) ∧
    (SyncHostRecord New etcdEndpoint rootPath etcdDomainName hst s).issued.length =
        hst.length ∧
    (SyncHostRecord New etcdEndpoint rootPath etcdDomainName hst s).status = .returned := by
  simp only [SyncHostRecord, hNew]
  have hr := syncLoop_all_ok cli (SyncHostRecord.operation rootPath etcdDomainName) hcli hst
    (fun e _ => host_operation_ok rootPath etcdDomainName e) s0
  have hi := syncLoop_returned_issued cli _ hst s0 hr
  refine ⟨hi, ?_, hr⟩
  have := congrArg List.length hi
  simpa using this

/-- On a store on which every write succeeds, `SyncVMRecord` returns after
issuing exactly one operation per VM, in list order, provided every VM of the
list has its configuration and its guest summary set. -/
theorem SyncVMRecord_one_operation_per_vm {σ : Type}
    (New : σ → String → σ × Except Error (Client σ)) (cli : Client σ) (s s0 : σ)
    (etcdEndpoint rootPath etcdDomainName : String) (vms : List VirtualMachine)
    (hNew : New s etcdEndpoint = (s0, .ok cli))
    (hcli : ∀ s op, (cli.exec s op).2 = none)
    (hvms : ∀ vm ∈ vms, vm.Config ≠ none ∧ vm.Summary.Guest ≠ none) :
    (SyncVMRecord New etcdEndpoint rootPath etcdDomainName vms s).issued.map Except.ok =
        vms.map (SyncVMRecord.operation rootPath etcdDomainName) ∧
    (SyncVMRecord New etcdEndpoint rootPath etcdDomainName vms s).issued.length =
        vms.length ∧
    (SyncVMRecord New etcdEndpoint rootPath etcdDomainName vms s).status = .returned := by
  simp only [SyncVMRecord, hNew]
  have hr := syncLoop_all_ok cli (SyncVMRecord.operation rootPath etcdDomainName) hcli vms
    (fun e he => vm_operation_ok rootPath etcdDomainName e (hvms e he)) s0
  have hi := syncLoop_returned_issued cli _ vms s0 hr
  refine ⟨hi, ?_, hr⟩
  have := congrArg List.length hi
  simpa using this

/-- C5 (the code departs from the claim): on the map store, where every
write succeeds, the VM list `app1.local` (IP `10.0.0.5`), a VM whose guest
summary is unset, `db1` (IP `10.0.0.7`) makes `SyncVMRecord` panic with a nil
dereference at the second VM: one operation is issued for three VMs and
`db1` is never written.  A VM whose configuration is unset does the same. -/
theorem SyncVMRecord_panics_on_unset_pointer :
    (SyncVMRecord kvNew "etcd:2379" "/skydns/" "local"
        [⟨some ⟨"app1.local"⟩, ⟨some ⟨"10.0.0.5"⟩⟩⟩, ⟨some ⟨"template-7"⟩, ⟨none⟩⟩,
          ⟨some ⟨"db1"⟩, ⟨some ⟨"10.0.0.7"⟩⟩⟩] (fun _ => none)).issued =
      [.Put "/skydns/local/app1" "\x7b\"host\":\"10.0.0.5\",\"ttl\":60\x7d"] ∧
    (SyncVMRecord kvNew "etcd:2379" "/skydns/" "local"
        [⟨some ⟨"app1.local"⟩, ⟨some ⟨"10.0.0.5"⟩⟩⟩, ⟨some ⟨"template-7"⟩, ⟨none⟩⟩,
          ⟨some ⟨"db1"⟩, ⟨some ⟨"10.0.0.7"⟩⟩⟩] (fun _ => none)).status =
      .panicked .nilDereference ∧
    (SyncVMRecord kvNew "etcd:2379" "/skydns/" "local"
        [⟨some ⟨"app1.local"⟩, ⟨some ⟨"10.0.0.5"⟩⟩⟩, ⟨some ⟨"template-7"⟩, ⟨none⟩⟩,
          ⟨some ⟨"db1"⟩, ⟨some ⟨"10.0.0.7"⟩⟩⟩] (fun _ => none)).store
        "/skydns/local/db1" = none ∧
    (SyncVMRecord kvNew "etcd:2379" "/skydns/" "local"
        [⟨none, ⟨some ⟨"10.0.0.9"⟩⟩⟩, ⟨some ⟨"db1"⟩, ⟨some ⟨"10.0.0.7"⟩⟩⟩]
        (fun _ => none)).issued = [] ∧
    (SyncVMRecord kvNew "etcd:2379" "/skydns/" "local"
        [⟨none, ⟨some ⟨"10.0.0.9"⟩⟩⟩, ⟨some ⟨"db1"⟩, ⟨some ⟨"10.0.0.7"⟩⟩⟩]
        (fun _ => none)).status = .panicked .nilDereference := by
  refine ⟨by decide, by decide, by decide, by decide, by decide⟩

/-! ### Inventory fetch failures -/

/-- A fetch fails exactly when the datacenter resolution, the listing or the
property retrieval fails. -/
theorem GetAllVMs_error_iff {σ : Type} (f : Finder σ VirtualMachine) (s : σ) (err : Error) :
    (GetAllVMs f s).2 = .error err ↔
      (f.DefaultDatacenter s).2 = .error err ∨
      (∃ u, (f.DefaultDatacenter s).2 = .ok u ∧
        (f.ObjectList (f.DefaultDatacenter s).1).2 = .error err) ∨
      (∃ u refs, (f.DefaultDatacenter s).2 = .ok u ∧
        (f.ObjectList (f.DefaultDatacenter s).1).2 = .ok refs ∧
        (f.Retrieve (f.ObjectList (f.DefaultDatacenter s).1).1 refs).2 = .error err) := by
  unfold GetAllVMs
  rcases h1 : f.DefaultDatacenter s with ⟨s1, e1 | u⟩
  · simp
  · rcases h2 : f.ObjectList s1 with ⟨s2, e2 | refs⟩
    · simp [h2]
    · rcases h3 : f.Retrieve s2 refs with ⟨s3, e3 | vmt⟩ <;> simp [h2, h3]

/-- A fetch fails exactly when the datacenter resolution, the listing or the
property retrieval fails. -/
theorem GetAllHosts_error_iff {σ : Type} (f : Finder σ HostSystem) (s : σ) (err : Error) :
    (GetAllHosts f s).2 = .error err ↔
      (f.DefaultDatacenter s).2 = .error err ∨
      (∃ u, (f.DefaultDatacenter s).2 = .ok u ∧
        (f.ObjectList (f.DefaultDatacenter s).1).2 = .error err) ∨
      (∃ u refs, (f.DefaultDatacenter s).2 = .ok u ∧
        (f.ObjectList (f.DefaultDatacenter s).1).2 = .ok refs ∧
        (f.Retrieve (f.ObjectList (f.DefaultDatacenter s).1).1 refs).2 = .error err) := by
  unfold GetAllHosts
  rcases h1 : f.DefaultDatacenter s with ⟨s1, e1 | u⟩
  · simp
  · rcases h2 : f.ObjectList s1 with ⟨s2, e2 | refs⟩
    · simp [h2]
    · rcases h3 : f.Retrieve s2 refs with ⟨s3, e3 | hst⟩ <;> simp [h2, h3]

/-- C9 as stated fails: the VM fetch yields `app1.local` (IP `10.0.0.5`),
every store write succeeds, and the host fetch fails at property retrieval.
The run has then already issued the put for `app1`, and exits with
status 1. -/
theorem host_fetch_failure_after_vm_writes :
    (GetAllHosts (exampleWorld steadyClient
        (fetchOk [⟨some ⟨"app1.local"⟩, ⟨some ⟨"10.0.0.5"⟩⟩⟩]) fetchFails).hostFinder
      [.Put "/skydns/local/app1" "\x7b\"host\":\"10.0.0.5\",\"ttl\":60\x7d"]).2 =
      .error "network error" ∧
    (main (exampleWorld steadyClient
        (fetchOk [⟨some ⟨"app1.local"⟩, ⟨some ⟨"10.0.0.5"⟩⟩⟩]) fetchFails) []).issued =
      [.Put "/skydns/local/app1" "\x7b\"host\":\"10.0.0.5\",\"ttl\":60\x7d"] ∧
    (main (exampleWorld steadyClient
        (fetchOk [⟨some ⟨"app1.local"⟩, ⟨some ⟨"10.0.0.5"⟩⟩⟩]) fetchFails) []).issued ≠ [] ∧
    (main (exampleWorld steadyClient
        (fetchOk [⟨some ⟨"app1.local"⟩, ⟨some ⟨"10.0.0.5"⟩⟩⟩]) fetchFails) []).store =
      [.Put "/skydns/local/app1" "\x7b\"host\":\"10.0.0.5\",\"ttl\":60\x7d"] ∧
    (main (exampleWorld steadyClient
        (fetchOk [⟨some ⟨"app1.local"⟩, ⟨some ⟨"10.0.0.5"⟩⟩⟩]) fetchFails) []).status =
      .exited 1 := by
  refine ⟨rfl, by decide, by decide, by decide, by decide⟩

/-- C9 amended: in a run of `main` that reached the fetches, a failing
`GetAllVMs` ends the process with exit status 1 and no store operation at
all; a failing `GetAllHosts`, which is only called after the VM pass has
returned, ends the process with exit status 1, and the operations issued in
the whole run are exactly those of the VM pass, one per VM in list order:
none is issued for a host. -/
theorem fetch_failure_stops_main {σ : Type} (w : World σ) (s sc : σ) (err : Error)
    (hconn : ConnectTovCenter w (w.Getenv "vCSAHostname") s = (sc, .ok ())) :
    ((GetAllVMs w.vmFinder sc).2 = .error err →
      (main w s).issued = [] ∧ (main w s).status = .exited 1 ∧
      (main w s).status.exitCode ≠ 0) ∧
    (∀ (sf : σ) (vms : List VirtualMachine),
      GetAllVMs w.vmFinder sc = (sf, .ok vms) →
      (SyncVMRecord w.New (w.Getenv "etcdEndpoint") (w.Getenv "etcdPluginRootPath")
        (w.Getenv "etcdDomainName") vms sf).status = .returned →
      (GetAllHosts w.hostFinder (SyncVMRecord w.New (w.Getenv "etcdEndpoint")
        (w.Getenv "etcdPluginRootPath") (w.Getenv "etcdDomainName") vms sf).store).2 =
        .error err →
      (main w s).issued = (SyncVMRecord w.New (w.Getenv "etcdEndpoint")
        (w.Getenv "etcdPluginRootPath") (w.Getenv "etcdDomainName") vms sf).issued ∧
      (main w s).issued.map Except.ok = vms.map (SyncVMRecord.operation
        (w.Getenv "etcdPluginRootPath") (w.Getenv "etcdDomainName")) ∧
      (main w s).status = .exited 1 ∧ (main w s).status.exitCode ≠ 0) := by
  constructor
  · intro h
    rcases hf : GetAllVMs w.vmFinder sc with ⟨sf, e | vms⟩
    · simp [main, hconn, hf, Status.exitCode]
    · rw [hf] at h; cases h
  · intro sf vms hf hr hh
    rcases hg : GetAllHosts w.hostFinder (SyncVMRecord w.New (w.Getenv "etcdEndpoint")
        (w.Getenv "etcdPluginRootPath") (w.Getenv "etcdDomainName") vms sf).store with
      ⟨sh, e | hosts⟩
    · have hi : (SyncVMRecord w.New (w.Getenv "etcdEndpoint")
          (w.Getenv "etcdPluginRootPath") (w.Getenv "etcdDomainName") vms sf).issued.map
          Except.ok = vms.map (SyncVMRecord.operation
          (w.Getenv "etcdPluginRootPath") (w.Getenv "etcdDomainName")) := by
        unfold SyncVMRecord at hr ⊢
        rcases hn : w.New sf (w.Getenv "etcdEndpoint") with ⟨s', e' | cli⟩
        · simp [hn] at hr
        · simp only [hn] at hr ⊢
          exact syncLoop_returned_issued cli _ vms s' hr
      simp [main, hconn, hf, hr, hg, hi, Status.exitCode]
    · rw [hg] at hh; cases hh

/-- A run whose VM fetch fails issues nothing; a run whose host fetch fails
after the VM `app1.local` was synchronised has issued that one put. -/
theorem fetch_failure_stops_main_witness :
    (main (exampleWorld steadyClient fetchFails (fetchOk [])) []).issued = [] ∧
    (main (exampleWorld steadyClient fetchFails (fetchOk [])) []).status = .exited 1 ∧
    (main (exampleWorld steadyClient
        (fetchOk [⟨some ⟨"app1.local"⟩, ⟨some ⟨"10.0.0.5"⟩⟩⟩]) fetchFails) []).issued =
      (SyncVMRecord (fun s _ => (s, .ok steadyClient)) "etcd:2379" "/skydns/" "local"
        [⟨some ⟨"app1.local"⟩, ⟨some ⟨"10.0.0.5"⟩⟩⟩] ([] : Journal)).issued ∧
    (main (exampleWorld steadyClient
        (fetchOk [⟨some ⟨"app1.local"⟩, ⟨some ⟨"10.0.0.5"⟩⟩⟩]) fetchFails) []).status =
      .exited 1 := by
  have h1 := (fetch_failure_stops_main (exampleWorld steadyClient fetchFails (fetchOk []))
    [] [] "network error" rfl).1 rfl
  have h2 := (fetch_failure_stops_main (exampleWorld steadyClient
    (fetchOk [⟨some ⟨"app1.local"⟩, ⟨some ⟨"10.0.0.5"⟩⟩⟩]) fetchFails)
    [] [] "network error" rfl).2 [] [⟨some ⟨"app1.local"⟩, ⟨some ⟨"10.0.0.5"⟩⟩⟩] rfl
    (by decide) rfl
  exact ⟨h1.1, h1.2.1, h2.1, h2.2.2.1⟩


/-! ### The value read back as JSON -/

theorem stringBody_quote (tail : List Char) :
    JSON.stringBody ('"' :: tail) = some ([], tail) := by
  unfold JSON.stringBody
  simp

theorem stringBody_cons_plain (c : Char) (cs : List Char)
    (h1 : c ≠ '"') (h2 : c ≠ '\\') (h3 : 0x20 ≤ c.toNat) :
    JSON.stringBody (c :: cs) =
      match JSON.stringBody cs with
      | some (s, r) => some (c :: s, r)
      | none => none := by
  have h4 : ¬ c.toNat < 0x20 := by omega
  conv => lhs; unfold JSON.stringBody
  simp [h1, h2, h4]

theorem stringBody_plain (cs tail : List Char)
    (h : ∀ c ∈ cs, c ≠ '"' ∧ c ≠ '\\' ∧ 0x20 ≤ c.toNat) :
    JSON.stringBody (cs ++ '"' :: tail) = some (cs, tail) := by
  induction cs with
  | nil => exact stringBody_quote tail
  | cons c cs ih =>
    obtain ⟨h1, h2, h3⟩ := h c (List.mem_cons_self _ _)
    have := ih (fun c' hc' => h c' (List.mem_cons_of_mem _ hc'))
    rw [List.cons_append, stringBody_cons_plain c _ h1 h2 h3, this]

theorem stringBody_host (rest : List Char) :
    JSON.stringBody ('h' :: 'o' :: 's' :: 't' :: '"' :: rest) =
      some (['h', 'o', 's', 't'], rest) :=
  stringBody_plain ['h', 'o', 's', 't'] rest (by decide)

theorem recordValue_data (ip : String) :
    (recordValue ip).data =
      '\x7b' :: '"' :: 'h' :: 'o' :: 's' :: 't' :: '"' :: ':' :: '"' ::
        (ip.data ++ '"' :: [',', '"', 't', 't', 'l', '"', ':', '6', '0', '\x7d']) := by
  simp [recordValue]

theorem members_ttl (fuel : Nat) :
    JSON.members (fuel + 1) ['"', 't', 't', 'l', '"', ':', '6', '0', '\x7d'] =
      some ([("ttl", .num 60)], []) := by
  rfl

theorem value_string (cs tail : List Char)
    (h : ∀ c ∈ cs, c ≠ '"' ∧ c ≠ '\\' ∧ 0x20 ≤ c.toNat) :
    JSON.value ('"' :: (cs ++ '"' :: tail)) = some (.str (String.mk cs), tail) := by
  simp [JSON.value, stringBody_plain cs tail h]

theorem members_record (fuel : Nat) (ip : String)
    (h : ∀ c ∈ ip.data, c ≠ '"' ∧ c ≠ '\\' ∧ 0x20 ≤ c.toNat) :
    JSON.members (fuel + 2) ('"' :: 'h' :: 'o' :: 's' :: 't' :: '"' :: ':' :: '"' ::
        (ip.data ++ '"' :: [',', '"', 't', 't', 'l', '"', ':', '6', '0', '\x7d'])) =
      some ([("host", .str ip), ("ttl", .num 60)], []) := by
  conv => lhs; unfold JSON.members
  simp [stringBody_host, JSON.skipWs, JSON.isWs, value_string ip.data _ h, members_ttl]

theorem members_record_of_le (fuel : Nat) (ip : String) (hf : 2 ≤ fuel)
    (h : ∀ c ∈ ip.data, c ≠ '"' ∧ c ≠ '\\' ∧ 0x20 ≤ c.toNat) :
    JSON.members fuel ('"' :: 'h' :: 'o' :: 's' :: 't' :: '"' :: ':' :: '"' ::
        (ip.data ++ '"' :: [',', '"', 't', 't', 'l', '"', ':', '6', '0', '\x7d'])) =
      some ([("host", .str ip), ("ttl", .num 60)], []) := by
  obtain ⟨n, rfl⟩ : ∃ n, fuel = n + 2 := ⟨fuel - 2, by omega⟩
  exact members_record n ip h

theorem decodeObject_recordValue (ip : String)
    (h : ∀ c ∈ ip.data, c ≠ '"' ∧ c ≠ '\\' ∧ 0x20 ≤ c.toNat) :
    JSON.decodeObject (recordValue ip) = some [("host", .str ip), ("ttl", .num 60)] := by
  unfold JSON.decodeObject
  rw [recordValue_data]
  simp [JSON.skipWs, JSON.isWs]
  rw [members_record_of_le _ ip (by omega) h]
  simp [JSON.skipWs]

/-- C4 as stated fails: the value is built by plain concatenation, without
JSON escaping.  For the guest IP string backslash-`n` the value decodes, but
to a host that is the line feed character, not the IP string; for a
management IP string ending in a double quote the value is not a JSON text
at all. -/
theorem unescaped_ip_breaks_json :
    SyncVMRecord.operation "/skydns/" "local" ⟨some ⟨"app1.local"⟩, ⟨some ⟨"\\n"⟩⟩⟩ =
      .ok (.Put "/skydns/local/app1" "\x7b\"host\":\"\\n\",\"ttl\":60\x7d") ∧
    JSON.decodeObject "\x7b\"host\":\"\\n\",\"ttl\":60\x7d" =
      some [("host", .str "\n"), ("ttl", .num 60)] ∧
    JSON.decodeObject "\x7b\"host\":\"\\n\",\"ttl\":60\x7d" ≠
      some [("host", .str "\\n"), ("ttl", .num 60)] ∧
    SyncHostRecord.operation "/skydns/" "local" ⟨⟨⟨"esxi01.dc.local"⟩, "192.168.1.10\""⟩⟩ =
      .ok (.Put "/skydns/local/esxi01" "\x7b\"host\":\"192.168.1.10\"\",\"ttl\":60\x7d") ∧
    JSON.decodeObject "\x7b\"host\":\"192.168.1.10\"\",\"ttl\":60\x7d" = none := by
  refine ⟨rfl, by decide, by decide, rfl, by decide⟩

/-- C4 amended: for every entry with a non-empty IP string that contains no
double quote, no backslash and no control character (below U+0020), the
value put by `SyncVMRecord` (the VM having its configuration and guest
summary set) and by `SyncHostRecord` is a JSON object that decodes to
exactly the two members `host`, the IP string, and `ttl`, the number 60. -/
theorem plain_ip_value_decodes (rootPath etcdDomainName : String)
    (vm : VirtualMachine) (config : VirtualMachineConfigInfo)
    (guest : VirtualMachineGuestSummary) (hs : HostSystem)
    (hc : vm.Config = some config) (hg : vm.Summary.Guest = some guest)
    (hvm : guest.IpAddress ≠ "")
    (hvmp : ∀ c ∈ guest.IpAddress.data, c ≠ '"' ∧ c ≠ '\\' ∧ 0x20 ≤ c.toNat)
    (hhs : hs.Summary.ManagementServerIp ≠ "")
    (hhsp : ∀ c ∈ hs.Summary.ManagementServerIp.data,
      c ≠ '"' ∧ c ≠ '\\' ∧ 0x20 ≤ c.toNat) :
    (∃ key value, SyncVMRecord.operation rootPath etcdDomainName vm = .ok (.Put key value) ∧
      JSON.decodeObject value = some [("host", .str guest.IpAddress), ("ttl", .num 60)]) ∧
    (∃ key value, SyncHostRecord.operation rootPath etcdDomainName hs = .ok (.Put key value) ∧
      JSON.decodeObject value =
        some [("host", .str hs.Summary.ManagementServerIp), ("ttl", .num 60)]) :=
  ⟨⟨_, _, vm_operation_put rootPath etcdDomainName vm config guest hc hg hvm,
      decodeObject_recordValue _ hvmp⟩,
    ⟨_, _, host_operation_put rootPath etcdDomainName hs hhs,
      decodeObject_recordValue _ hhsp⟩⟩

/-- The VM `app1.local` with guest IP `10.0.0.5` and the host
`esxi01.dc.local` with management IP `192.168.1.10`. -/
theorem plain_ip_value_decodes_witness :
    (∃ key value, SyncVMRecord.operation "/skydns/" "local"
        ⟨some ⟨"app1.local"⟩, ⟨some ⟨"10.0.0.5"⟩⟩⟩ = .ok (.Put key value) ∧
      JSON.decodeObject value = some [("host", .str "10.0.0.5"), ("ttl", .num 60)]) ∧
    (∃ key value, SyncHostRecord.operation "/skydns/" "local"
        ⟨⟨⟨"esxi01.dc.local"⟩, "192.168.1.10"⟩⟩ = .ok (.Put key value) ∧
      JSON.decodeObject value = some [("host", .str "192.168.1.10"), ("ttl", .num 60)]) :=
  plain_ip_value_decodes "/skydns/" "local" ⟨some ⟨"app1.local"⟩, ⟨some ⟨"10.0.0.5"⟩⟩⟩
    ⟨"app1.local"⟩ ⟨"10.0.0.5"⟩ ⟨⟨⟨"esxi01.dc.local"⟩, "192.168.1.10"⟩⟩ rfl rfl
    (by decide) (by decide) (by decide) (by decide)

/-! ### Where the VM pass departs from the record rules -/

/-- C1 (the code departs from the claim): a VM with the non-empty guest IP
`10.0.0.9` whose configuration is unset.  Evaluating the key of the `Put`
dereferences `vm.Config` and panics: the pass issues no operation, the store
holds nothing at any key, and the process ends in a nil dereference instead
of a `Put`.  A host with the same name data and IP gets its `Put`. -/
theorem SyncVMRecord_no_put_on_unset_config :
    SyncVMRecord.operation "/skydns/" "local" ⟨none, ⟨some ⟨"10.0.0.9"⟩⟩⟩ =
      .error .nilDereference ∧
    (SyncVMRecord kvNew "etcd:2379" "/skydns/" "local" [⟨none, ⟨some ⟨"10.0.0.9"⟩⟩⟩]
        (fun _ => none)).issued = [] ∧
    (SyncVMRecord kvNew "etcd:2379" "/skydns/" "local" [⟨none, ⟨some ⟨"10.0.0.9"⟩⟩⟩]
        (fun _ => none)).status = .panicked .nilDereference ∧
    (SyncVMRecord kvNew "etcd:2379" "/skydns/" "local" [⟨none, ⟨some ⟨"10.0.0.9"⟩⟩⟩]
        (fun _ => none)).status.exitCode = 2 ∧
    (SyncHostRecord kvNew "etcd:2379" "/skydns/" "local"
        [⟨⟨⟨"esxi09.dc.local"⟩, "10.0.0.9"⟩⟩] (fun _ => none)).issued =
      [.Put "/skydns/local/esxi09" "\x7b\"host\":\"10.0.0.9\",\"ttl\":60\x7d"] := by
  refine ⟨rfl, by decide, by decide, by decide, by decide⟩

/-- C2 (the code departs from the claim): a VM with an empty guest IP whose
configuration is unset, and a VM `template-7` whose guest summary is unset
(it has no address at all).  Both make the pass panic with a nil
dereference before any client call: no `Delete` is issued, and the stale
record at `/skydns/local/template-7` stays in the store. -/
theorem SyncVMRecord_no_delete_on_unset_pointer :
    SyncVMRecord.operation "/skydns/" "local" ⟨none, ⟨some ⟨""⟩⟩⟩ = .error .nilDereference ∧
    (SyncVMRecord kvNew "etcd:2379" "/skydns/" "local" [⟨none, ⟨some ⟨""⟩⟩⟩]
        (fun _ => none)).issued = [] ∧
    (SyncVMRecord kvNew "etcd:2379" "/skydns/" "local" [⟨none, ⟨some ⟨""⟩⟩⟩]
        (fun _ => none)).status = .panicked .nilDereference ∧
    SyncVMRecord.operation "/skydns/" "local" ⟨some ⟨"template-7"⟩, ⟨none⟩⟩ =
      .error .nilDereference ∧
    (SyncVMRecord kvNew "etcd:2379" "/skydns/" "local" [⟨some ⟨"template-7"⟩, ⟨none⟩⟩]
        (fun _ => some "stale")).issued = [] ∧
    (SyncVMRecord kvNew "etcd:2379" "/skydns/" "local" [⟨some ⟨"template-7"⟩, ⟨none⟩⟩]
        (fun _ => some "stale")).status = .panicked .nilDereference ∧
    (SyncVMRecord kvNew "etcd:2379" "/skydns/" "local" [⟨some ⟨"template-7"⟩, ⟨none⟩⟩]
        (fun _ => some "stale")).store "/skydns/local/template-7" = some "stale" := by
  refine ⟨rfl, by decide, by decide, rfl, by decide, by decide, by decide⟩

/-- C7 (the code departs from the claim): the VM list `template-7` (guest
summary unset), `app1.local` (IP `10.0.0.5`) on a map store that holds
`stale` everywhere.  `app1.local` is the last, and only, entry whose key is
`/skydns/local/app1` and its IP is non-empty, yet the pass panics at the
first VM, issues nothing, and the store still holds `stale` at that key. -/
theorem SyncVMRecord_key_stale_after_panic :
    SyncVMRecord.operation "/skydns/" "local" ⟨some ⟨"app1.local"⟩, ⟨some ⟨"10.0.0.5"⟩⟩⟩ =
      .ok (.Put "/skydns/local/app1" "\x7b\"host\":\"10.0.0.5\",\"ttl\":60\x7d") ∧
    (SyncVMRecord kvNew "etcd:2379" "/skydns/" "local"
        [⟨some ⟨"template-7"⟩, ⟨none⟩⟩, ⟨some ⟨"app1.local"⟩, ⟨some ⟨"10.0.0.5"⟩⟩⟩]
        (fun _ => some "stale")).store "/skydns/local/app1" = some "stale" ∧
    (SyncVMRecord kvNew "etcd:2379" "/skydns/" "local"
        [⟨some ⟨"template-7"⟩, ⟨none⟩⟩, ⟨some ⟨"app1.local"⟩, ⟨some ⟨"10.0.0.5"⟩⟩⟩]
        (fun _ => some "stale")).store "/skydns/local/app1" ≠
      some "\x7b\"host\":\"10.0.0.5\",\"ttl\":60\x7d" ∧
    (SyncVMRecord kvNew "etcd:2379" "/skydns/" "local"
        [⟨some ⟨"template-7"⟩, ⟨none⟩⟩, ⟨some ⟨"app1.local"⟩, ⟨some ⟨"10.0.0.5"⟩⟩⟩]
        (fun _ => some "stale")).issued = [] ∧
    (SyncVMRecord kvNew "etcd:2379" "/skydns/" "local"
        [⟨some ⟨"template-7"⟩, ⟨none⟩⟩, ⟨some ⟨"app1.local"⟩, ⟨some ⟨"10.0.0.5"⟩⟩⟩]
        (fun _ => some "stale")).status = .panicked .nilDereference := by
  refine ⟨rfl, by decide, by decide, by decide, by decide⟩

end SyncVCenter
